import Mathlib

/-!
# Book-Management-API: a shallow embedding of the request handlers

The Express application of `index.js` mounts two routers: `userRouter`
(`routes/user.routes.js`: signup, login, logout) and `bookRouter`
(`routes/book.routes.js`: six book handlers behind `auth` of
`middleware/auth.middleware.js`).  Each handler is a function from the request,
the database state and the environment of the call (clock, randomness, an error
the store may raise) to the response sent and the database state afterwards.
The libraries the handlers call are modelled where their behaviour decides a
response: express-validator on the text of a field, `String()` and `Number()` of
JavaScript on numbers, the casts of mongoose.
-/

namespace BookApi

/-! ## JavaScript strings -/

/-- The pieces of `s.split(sep)` for a one-character separator, on character lists. -/
def splitChars (sep : Char) : List Char → List (List Char)
  | [] => [[]]
  | c :: cs =>
    if c = sep then [] :: splitChars sep cs
    else
      match splitChars sep cs with
      | [] => [[c]]
      | p :: ps => (c :: p) :: ps

/-- The remainder of the text after the pattern when the text starts with the pattern. -/
def stripStart : List Char → List Char → Option (List Char)
  | [], s => some s
  | _ :: _, [] => none
  | p :: ps, c :: cs => if p = c then stripStart ps cs else none

/-- The call `s.replace(pat, rep)` with a string pattern: only the first occurrence is replaced. -/
def replaceFirstChars (pat rep : List Char) : List Char → List Char
  | [] =>
    match stripStart pat [] with
    | some r => rep ++ r
    | none => []
  | c :: cs =>
    match stripStart pat (c :: cs) with
    | some r => rep ++ r
    | none => c :: replaceFirstChars pat rep cs

/-- The call `s.replace(pat, rep)` on strings. -/
def jsReplace (s pat rep : String) : String :=
  ⟨replaceFirstChars pat.data rep.data s.data⟩

/-- The decimal digit character of a number below ten. -/
def digitChar : Nat → Char
  | 0 => '0'
  | 1 => '1'
  | 2 => '2'
  | 3 => '3'
  | 4 => '4'
  | 5 => '5'
  | 6 => '6'
  | 7 => '7'
  | 8 => '8'
  | _ => '9'

/-- Decimal digits of a natural number, most significant first (fuel bounds the recursion). -/
def natDigitsAux : Nat → Nat → List Char
  | 0, n => [digitChar (n % 10)]
  | fuel + 1, n =>
    if n < 10 then [digitChar n]
    else natDigitsAux fuel (n / 10) ++ [digitChar (n % 10)]

/-- The text `String(n)` of a natural number. -/
def natDigits (n : Nat) : List Char := natDigitsAux n n

/-- The decimal expansion of an integer: the digits, `-` before a negative one. -/
def intChars : Int → List Char
  | Int.ofNat n => natDigits n
  | Int.negSucc n => '-' :: natDigits (n + 1)

/-- The value of a run of decimal digits. -/
def digitsValue (ds : List Char) : Nat :=
  ds.foldl (fun acc c => 10 * acc + (c.toNat - 48)) 0

/-! ## JavaScript numbers -/

/-- A finite JSON number of a request body, as the decimal `mantissa × 10 ^ exponent` with a
sign.  The bounds keep to the numbers for which `JSON.parse` followed by `String()` gives back
the digits written: at most 15 significant digits and a magnitude in the normal range of a
double.  Numbers that need 16 or 17 digits, or overflow, are not represented. -/
structure JsNumber where
  negative : Bool
  mantissa : Nat
  exponent : Int
  bounded : mantissa < 10 ^ 15 ∧ -300 ≤ exponent ∧ exponent ≤ 290
  deriving DecidableEq, Repr

/-- The mantissa with its trailing zeros moved into the exponent (fuel bounds the recursion). -/
def dropZeros : Nat → Nat → Int → Nat × Int
  | 0, m, e => (m, e)
  | fuel + 1, m, e =>
    if m ≠ 0 ∧ m % 10 = 0 then dropZeros fuel (m / 10) (e + 1) else (m, e)

/-- The exponent part of `Number::toString`: the sign and the digits of the exponent. -/
def exponentChars (e : Int) : List Char :=
  (if e < 0 then '-' else '+') :: natDigits e.natAbs

/-- The steps of `Number::toString` of ECMAScript for the digits `ds` of `s` (of which there are
`k`, the last not zero) and the position `n` with `s × 10 ^ (n - k)` the number: the digits and
`n - k` zeros when `k ≤ n ≤ 21`; a decimal point inside the digits when `0 < n ≤ 21`; `0.` and
`-n` zeros before the digits when `-6 < n ≤ 0`; otherwise the exponent form. -/
def decimalText (ds : List Char) (n : Int) : List Char :=
  if (ds.length : Int) ≤ n ∧ n ≤ 21 then ds ++ List.replicate (n - ds.length).toNat '0'
  else if 0 < n ∧ n ≤ 21 then ds.take n.toNat ++ '.' :: ds.drop n.toNat
  else if -6 < n ∧ n ≤ 0 then '0' :: '.' :: (List.replicate (-n).toNat '0' ++ ds)
  else
    match ds with
    | [] => []
    | [d] => d :: 'e' :: exponentChars (n - 1)
    | d :: rest => d :: '.' :: (rest ++ 'e' :: exponentChars (n - 1))

/-- The text `String(x)` of a number: `0` for zero of either sign, otherwise `Number::toString`
on the digits of the mantissa without its trailing zeros, `-` before a negative number. -/
def numberText (x : JsNumber) : List Char :=
  if x.mantissa = 0 then ['0']
  else if x.negative then
    '-' :: decimalText (natDigits (dropZeros x.mantissa x.mantissa x.exponent).1)
      ((dropZeros x.mantissa x.mantissa x.exponent).2 +
        (natDigits (dropZeros x.mantissa x.mantissa x.exponent).1).length)
  else
    decimalText (natDigits (dropZeros x.mantissa x.mantissa x.exponent).1)
      ((dropZeros x.mantissa x.mantissa x.exponent).2 +
        (natDigits (dropZeros x.mantissa x.mantissa x.exponent).1).length)

/-- The integer a number is, when it is one: zero, or the mantissa without trailing zeros times
a power of ten with exponent not negative. -/
def JsNumber.integral (x : JsNumber) : Option Int :=
  if x.mantissa = 0 then some 0
  else if 0 ≤ (dropZeros x.mantissa x.mantissa x.exponent).2 then
    some (if x.negative then
        -(((dropZeros x.mantissa x.mantissa x.exponent).1 *
          10 ^ (dropZeros x.mantissa x.mantissa x.exponent).2.toNat : Nat) : Int)
      else
        (((dropZeros x.mantissa x.mantissa x.exponent).1 *
          10 ^ (dropZeros x.mantissa x.mantissa x.exponent).2.toNat : Nat) : Int))
  else none

/-- A Number the Book schema stores after `isInt()`: an integral double, or an infinity. -/
inductive StoredNumber where
  | finite (n : Int)
  | infinity (negative : Bool)
  deriving DecidableEq, Repr

/-- The number of low bits a natural number has beyond 53 (fuel bounds the recursion). -/
def excessBits : Nat → Nat → Nat
  | 0, _ => 0
  | fuel + 1, n => if n < 2 ^ 53 then 0 else excessBits fuel (n / 2) + 1

/-- The bound `2 ^ 1024` of the doubles, written so that it is evaluated. -/
def doubleLimit : Nat := (2 ^ 128) ^ 8

/-- The double nearest to a natural number, ties to the even significand; `none` when the
rounded value leaves the range of the doubles (the result is `Infinity`). -/
def nearestDouble (n : Nat) : Option Nat :=
  if n < 2 ^ 53 then some n
  else if
      (if 2 ^ (excessBits n n - 1) < n % 2 ^ excessBits n n ∨
          (n % 2 ^ excessBits n n = 2 ^ (excessBits n n - 1) ∧
            (n / 2 ^ excessBits n n) % 2 = 1)
        then n / 2 ^ excessBits n n + 1 else n / 2 ^ excessBits n n) * 2 ^ excessBits n n
        < doubleLimit then
    some
      ((if 2 ^ (excessBits n n - 1) < n % 2 ^ excessBits n n ∨
          (n % 2 ^ excessBits n n = 2 ^ (excessBits n n - 1) ∧
            (n / 2 ^ excessBits n n) % 2 = 1)
        then n / 2 ^ excessBits n n + 1 else n / 2 ^ excessBits n n) * 2 ^ excessBits n n)
  else none

/-- The Number value for an integer (`Number(text)`, `JSON.parse`): the nearest double. -/
def numberOfInt (z : Int) : StoredNumber :=
  match nearestDouble z.natAbs with
  | some v => StoredNumber.finite (if z < 0 then -(v : Int) else (v : Int))
  | none => StoredNumber.infinity (decide (z < 0))

/-! ## Data model -/

/-- A generated document identifier. -/
abbrev Id := Nat

/-- Modelled from the spec: the User document of `models/user.schema.js`, which is not among
the sources.  Spec section 3: `id (generated, unique), username, email (intended unique, not
enforced by a constraint in source), passwordHash`; the field holding the hash is `password`
in `user.routes.js`. -/
structure User where
  id : Id
  username : String
  email : String
  password : String
  deriving DecidableEq, Repr

/-- Modelled from the spec: the Book document of `models/book.schema.js`, which is not among
the sources.  Spec section 3: `id (generated, unique), title: string, author: string,
publicationYear: integer`; the field holds what the cast to Number stores. -/
structure Book where
  id : Id
  title : String
  author : String
  publicationYear : StoredNumber
  deriving DecidableEq, Repr

/-- The Blacklist document of `models/blacklist.schema.js`: `token` is required and unique,
`expiresAt` is required. -/
structure BlacklistedToken where
  token : String
  expiresAt : Nat
  deriving DecidableEq, Repr

/-- The three collections of the database. -/
structure Db where
  users : List User
  books : List Book
  blacklist : List BlacklistedToken
  deriving DecidableEq, Repr

/-- What the surroundings contribute to one request: the clock reading (`new Date()`, the time
a token is signed or verified at), the randomness `bcrypt.hash` draws for its salt, and for each
collection the error its operation raises during this request, if it raises one (connection
lost, time-out). -/
structure Env where
  now : Nat
  salt : Nat
  usersFault : Option String
  booksFault : Option String
  blacklistFault : Option String
  deriving DecidableEq, Repr

/-- The `bcrypt` library: `hash(data, rounds)` with the salt drawn for the call, and
`compare(data, hash)`. -/
structure Bcrypt where
  hash : String → Nat → Nat → String
  compare : String → String → Bool

/-- The `jsonwebtoken` library under the process-wide secret: `sign(userId, issuedAt, lifetime)`
and `verify(token, now)`, which is `none` when verification throws. -/
structure Jwt where
  sign : Id → Nat → Nat → String
  verify : String → Nat → Option Id

/-- A JSON scalar of a request body: `null`, a boolean, a number or a string.  Arrays and
objects are not represented. -/
inductive JsonValue where
  | null
  | bool (b : Bool)
  | num (x : JsNumber)
  | str (s : String)
  deriving DecidableEq, Repr

/-- The casts of mongoose that depend on a route parameter: of `:id` to the identifier type and
of `:publicationYear` to Number; `none` when the cast throws. -/
structure Mongoose where
  objectId : String → Option Id
  yearParam : String → Option StoredNumber

/-- One entry of `errors.array()` of express-validator. -/
structure ValidationError where
  msg : String
  param : String
  deriving DecidableEq, Repr

/-- The bodies the handlers send. -/
inductive Body where
  | text (s : String)
  | error (message : String)
  | errors (es : List ValidationError)
  | message (m : String)
  | registered (m : String) (user : User)
  | loggedIn (m : String) (token : String)
  | book (b : Option Book)
  | books (bs : List Book)
  deriving DecidableEq, Repr

/-- A response: `res.status(status).send(body)`. -/
structure Response where
  status : Nat
  body : Body
  deriving DecidableEq, Repr

/-- What a route handler did: it sent one response, or an exception left it uncaught. -/
inductive Result where
  | sent (r : Response)
  | uncaught (message : String)
  deriving DecidableEq, Repr

/-- What the middleware `auth` did: it answered itself, or it set `req.user` and called
`next()`. -/
inductive AuthOutcome where
  | reject (r : Response)
  | next (user : User)
  deriving DecidableEq, Repr

/-! ## Store operations -/

/-- An identifier that no document of the collection has. -/
def freshId (ids : List Id) : Id := ids.foldr max 0 + 1

/-- The call `Model.findByIdAndDelete(id)`: the first document with the id is removed. -/
def deleteFirst (id : Id) : List Book → List Book
  | [] => []
  | b :: bs => if b.id = id then bs else b :: deleteFirst id bs

/-- The update document `{ title, author, publicationYear }` after casting, `undefined` keys
stripped. -/
structure BookUpdate where
  title : Option String
  author : Option String
  publicationYear : Option StoredNumber
  deriving DecidableEq, Repr

/-- Merge of an update document into a stored book: only the keys present change. -/
def applyUpdate (u : BookUpdate) (b : Book) : Book :=
  { id := b.id
    title := u.title.getD b.title
    author := u.author.getD b.author
    publicationYear := u.publicationYear.getD b.publicationYear }

/-- The call `Model.findByIdAndUpdate(id, update, { new: true })`: the first document with the
id is updated and returned as updated; `none` (the `null` of mongoose) when there is none. -/
def updateFirst (id : Id) (u : BookUpdate) : List Book → Option Book × List Book
  | [] => (none, [])
  | b :: bs =>
    if b.id = id then (some (applyUpdate u b), applyUpdate u b :: bs)
    else ((updateFirst id u bs).1, b :: (updateFirst id u bs).2)

/-! ## Request validation (express-validator) -/

/-- The body of `POST /book` and `PUT /book/:id`: each key is absent or holds a scalar. -/
structure BookBody where
  title : Option JsonValue
  author : Option JsonValue
  publicationYear : Option JsonValue
  deriving DecidableEq, Repr

/-- The text the standard validators of express-validator are run on (its `toString`):
`undefined` and `null` give the empty text. -/
def fieldText : Option JsonValue → String
  | none => ""
  | some JsonValue.null => ""
  | some (JsonValue.bool b) => if b then "true" else "false"
  | some (JsonValue.num x) => ⟨numberText x⟩
  | some (JsonValue.str s) => s

/-- The validator `notEmpty()`: the text has a character. -/
def notEmpty (v : Option JsonValue) : Bool := !(fieldText v).data.isEmpty

/-- The text without a leading sign. -/
def unsigned : List Char → List Char
  | [] => []
  | c :: ds => if c = '-' ∨ c = '+' then ds else c :: ds

/-- The validator `isInt()` on a text: an optional sign, then one or more decimal digits. -/
def isIntChars (cs : List Char) : Bool :=
  !(unsigned cs).isEmpty && (unsigned cs).all Char.isDigit

/-- The validator `isInt()` on a field. -/
def isInt (v : Option JsonValue) : Bool := isIntChars (fieldText v).data

/-- The number a text of integer shape denotes. -/
def intValue : List Char → Int
  | [] => 0
  | c :: ds =>
    if c = '-' then -((digitsValue ds : Nat) : Int)
    else if c = '+' then ((digitsValue ds : Nat) : Int)
    else ((digitsValue (c :: ds) : Nat) : Int)

/-- The error an unmet check contributes to `errors.array()`. -/
def check (ok : Bool) (msg param : String) : List ValidationError :=
  if ok then [] else [⟨msg, param⟩]

/-- The chain of `POST /book`: `title` and `author` not empty, `publicationYear` an integer. -/
def postValidation (b : BookBody) : List ValidationError :=
  check (notEmpty b.title) "Title is required" "title" ++
  check (notEmpty b.author) "Author is required" "author" ++
  check (isInt b.publicationYear) "Publication year must be a valid integer" "publicationYear"

/-- A check behind `optional()`: skipped when the key is `undefined`. -/
def optionalCheck (v : Option JsonValue) (ok : Option JsonValue → Bool) (msg param : String) :
    List ValidationError :=
  match v with
  | none => []
  | some x => check (ok (some x)) msg param

/-- The chain of `PUT /book/:id`: the same checks, each behind `optional()`. -/
def putValidation (b : BookBody) : List ValidationError :=
  optionalCheck b.title notEmpty "Title is required" "title" ++
  optionalCheck b.author notEmpty "Author is required" "author" ++
  optionalCheck b.publicationYear isInt "Publication year must be a valid integer"
    "publicationYear"

/-- The cast of a value to the schema type String: a string as itself, a number and a boolean
as their text; `none` for `null`. -/
def castString : JsonValue → Option String
  | JsonValue.null => none
  | JsonValue.bool b => some (if b then "true" else "false")
  | JsonValue.num x => some ⟨numberText x⟩
  | JsonValue.str s => some s

/-- The cast of a value to the schema type Number: the double nearest to the integer a number is
or a text of integer shape writes.  It is `none` for `null` and for the numbers and texts
`isInt()` rejects, which the handlers never cast. -/
def castNumber : JsonValue → Option StoredNumber
  | JsonValue.null => none
  | JsonValue.bool b => some (StoredNumber.finite (if b then 1 else 0))
  | JsonValue.num x => x.integral.map numberOfInt
  | JsonValue.str s => if isIntChars s.data then some (numberOfInt (intValue s.data)) else none

/-! ## The middleware `auth` (`middleware/auth.middleware.js`) -/

/-- The token `authHeader && authHeader.split(' ')[1]`; `none` when it is falsy (`undefined` or
the empty string). -/
def bearerToken (authorization : Option String) : Option String :=
  match authorization with
  | none => none
  | some h =>
    match (splitChars ' ' h.data)[1]? with
    | none => none
    | some [] => none
    | some (c :: cs) => some ⟨c :: cs⟩

/-- The middleware `auth`.  `jwt.verify` and `userModel.findById` are both inside the `try`,
so an error of either reaches the `catch`, which answers 403. -/
def auth (jwt : Jwt) (env : Env) (db : Db) (authorization : Option String) : AuthOutcome :=
  match bearerToken authorization with
  | none => AuthOutcome.reject ⟨401, Body.text "Access denied. No token provided."⟩
  | some token =>
    match jwt.verify token env.now with
    | none => AuthOutcome.reject ⟨403, Body.text "Invalid token."⟩
    | some userId =>
      match env.usersFault with
      | some _ => AuthOutcome.reject ⟨403, Body.text "Invalid token."⟩
      | none =>
        match db.users.find? (fun u => decide (u.id = userId)) with
        | none => AuthOutcome.reject ⟨404, Body.text "User not found."⟩
        | some user => AuthOutcome.next user

/-! ## User routes (`routes/user.routes.js`) -/

/-- The body of `POST /user/signup`. -/
structure SignupBody where
  username : String
  email : String
  password : Option String
  deriving DecidableEq, Repr

/-- The body of `POST /user/login`. -/
structure LoginBody where
  email : String
  password : Option String
  deriving DecidableEq, Repr

/-- The handler of `POST /user/signup`: hash, create, save; every error inside the `try` is
answered 500 with its message. -/
def signup (bc : Bcrypt) (env : Env) (db : Db) (body : SignupBody) : Result × Db :=
  match body.password with
  | none => (Result.sent ⟨500, Body.error "data and salt arguments required"⟩, db)
  | some password =>
    match env.usersFault with
    | some m => (Result.sent ⟨500, Body.error m⟩, db)
    | none =>
      (Result.sent ⟨201, Body.registered "User has been registered successfully"
          ⟨freshId (db.users.map User.id), body.username, body.email,
            bc.hash password 10 env.salt⟩⟩,
        { db with users := db.users ++
            [⟨freshId (db.users.map User.id), body.username, body.email,
              bc.hash password 10 env.salt⟩] })

/-- The handler of `POST /user/login`: `findOne({ email })` gives the first user with the
email; the token is signed for one hour. -/
def login (bc : Bcrypt) (jwt : Jwt) (env : Env) (db : Db) (body : LoginBody) : Result × Db :=
  match env.usersFault with
  | some m => (Result.sent ⟨500, Body.error m⟩, db)
  | none =>
    match db.users.find? (fun u => decide (u.email = body.email)) with
    | none => (Result.sent ⟨404, Body.text "User not found. Please try signing up."⟩, db)
    | some user =>
      match body.password with
      | none => (Result.sent ⟨500, Body.text "Error comparing passwords."⟩, db)
      | some password =>
        if bc.compare password user.password then
          (Result.sent ⟨200, Body.loggedIn "Login successful" (jwt.sign user.id env.now 3600)⟩,
            db)
        else
          (Result.sent
            ⟨401, Body.text "Wrong credentials. Please enter the correct password."⟩, db)

/-- The handler of `POST /user/logout`.  The header is read before the `try`: without the
header `.replace` is called on `undefined` and the TypeError leaves the handler.  Inside the
`try` the save fails on an empty token (`required`), on a store error, and on a token already
recorded (`unique`). -/
def logout (env : Env) (db : Db) (authorization : Option String) : Result × Db :=
  match authorization with
  | none => (Result.uncaught "Cannot read properties of undefined (reading 'replace')", db)
  | some h =>
    if (jsReplace h "Bearer " "").data.isEmpty then
      (Result.sent
        ⟨500, Body.error "Blacklist validation failed: token: Path `token` is required."⟩, db)
    else
      match env.blacklistFault with
      | some m => (Result.sent ⟨500, Body.error m⟩, db)
      | none =>
        if db.blacklist.any (fun b => decide (b.token = jsReplace h "Bearer " "")) then
          (Result.sent ⟨500, Body.error "E11000 duplicate key error"⟩, db)
        else
          (Result.sent ⟨200, Body.text "Logout successful."⟩,
            { db with blacklist := db.blacklist ++ [⟨jsReplace h "Bearer " "", env.now⟩] })

/-! ## Book routes (`routes/book.routes.js`) -/

/-- The answer of every `catch` of the book handlers. -/
def internalError : Response := ⟨500, Body.error "Internal server error"⟩

/-- The handler of `GET /book`. -/
def getBooks (env : Env) (db : Db) : Result × Db :=
  match env.booksFault with
  | some _ => (Result.sent internalError, db)
  | none => (Result.sent ⟨200, Body.books db.books⟩, db)

/-- The handler of `GET /book/author/:author`: `Book.find({ author })`. -/
def getBooksByAuthor (env : Env) (db : Db) (author : String) : Result × Db :=
  match env.booksFault with
  | some _ => (Result.sent internalError, db)
  | none =>
    (Result.sent ⟨200, Body.books (db.books.filter (fun b => decide (b.author = author)))⟩, db)

/-- The handler of `GET /book/publicationYear/:publicationYear`; the route parameter is cast to
Number by mongoose, and a cast that throws lands in the `catch`. -/
def getBooksByPublicationYear (mg : Mongoose) (env : Env) (db : Db) (year : String) :
    Result × Db :=
  match mg.yearParam year with
  | none => (Result.sent internalError, db)
  | some y =>
    match env.booksFault with
    | some _ => (Result.sent internalError, db)
    | none =>
      (Result.sent
        ⟨200, Body.books (db.books.filter (fun b => decide (b.publicationYear = y)))⟩, db)

/-- The handler of `POST /book`: 400 with the errors when validation fails, otherwise create
and save. -/
def postBook (env : Env) (db : Db) (body : BookBody) : Result × Db :=
  if postValidation body ≠ [] then
    (Result.sent ⟨400, Body.errors (postValidation body)⟩, db)
  else
    match body.title.bind castString, body.author.bind castString,
        body.publicationYear.bind castNumber with
    | some t, some a, some y =>
      match env.booksFault with
      | some _ => (Result.sent internalError, db)
      | none =>
        (Result.sent ⟨201, Body.book (some ⟨freshId (db.books.map Book.id), t, a, y⟩)⟩,
          { db with books := db.books ++ [⟨freshId (db.books.map Book.id), t, a, y⟩] })
    | _, _, _ => (Result.sent internalError, db)

/-- The cast of one key of the update document: an absent key stays absent, a present one is
cast; the outer `none` is a failed cast. -/
def castKey {α : Type} (cast : JsonValue → Option α) : Option JsonValue → Option (Option α)
  | none => some none
  | some v => (cast v).map some

/-- The handler of `PUT /book/:id`: 400 with the errors when validation fails, otherwise
`findByIdAndUpdate(req.params.id, ...)` with the keys of the body, and the updated document (or
`null`) sent.  A route parameter that cannot be cast to an identifier makes the call throw,
which lands in the `catch`. -/
def putBook (mg : Mongoose) (env : Env) (db : Db) (id : String) (body : BookBody) :
    Result × Db :=
  if putValidation body ≠ [] then
    (Result.sent ⟨400, Body.errors (putValidation body)⟩, db)
  else
    match mg.objectId id with
    | none => (Result.sent internalError, db)
    | some i =>
      match castKey castString body.title, castKey castString body.author,
          castKey castNumber body.publicationYear with
      | some t, some a, some y =>
        match env.booksFault with
        | some _ => (Result.sent internalError, db)
        | none =>
          (Result.sent ⟨200, Body.book (updateFirst i ⟨t, a, y⟩ db.books).1⟩,
            { db with books := (updateFirst i ⟨t, a, y⟩ db.books).2 })
      | _, _, _ => (Result.sent internalError, db)

/-- The handler of `DELETE /book/:id`: `findByIdAndDelete(req.params.id)`.  A route parameter
that cannot be cast to an identifier makes the call throw, which lands in the `catch`. -/
def deleteBook (mg : Mongoose) (env : Env) (db : Db) (id : String) : Result × Db :=
  match mg.objectId id with
  | none => (Result.sent internalError, db)
  | some i =>
    match env.booksFault with
    | some _ => (Result.sent internalError, db)
    | none =>
      (Result.sent ⟨200, Body.message "Book deleted successfully"⟩,
        { db with books := deleteFirst i db.books })

/-- A request to one of the six routes of `bookRouter`, with its route parameter as sent. -/
inductive BookRequest where
  | list
  | byAuthor (author : String)
  | byPublicationYear (year : String)
  | create (body : BookBody)
  | update (id : String) (body : BookBody)
  | remove (id : String)
  deriving DecidableEq, Repr

/-- The route handlers of `bookRouter`. -/
def bookHandler (mg : Mongoose) (env : Env) (db : Db) : BookRequest → Result × Db
  | BookRequest.list => getBooks env db
  | BookRequest.byAuthor author => getBooksByAuthor env db author
  | BookRequest.byPublicationYear year => getBooksByPublicationYear mg env db year
  | BookRequest.create body => postBook env db body
  | BookRequest.update id body => putBook mg env db id body
  | BookRequest.remove id => deleteBook mg env db id

/-- The router mounted at `/book`: `bookRouter.use(auth)` comes before every route, so a
handler runs only after `auth` has called `next()`. -/
def bookRouter (jwt : Jwt) (mg : Mongoose) (env : Env) (db : Db)
    (authorization : Option String) (rq : BookRequest) : Result × Db :=
  match auth jwt env db authorization with
  | AuthOutcome.reject r => (Result.sent r, db)
  | AuthOutcome.next _ => bookHandler mg env db rq

/-! ## The notions the claims on fields are stated in -/

/-- A field is missing or empty: the key is absent, or holds `null`, or holds the empty
string. -/
def MissingOrEmpty (v : Option JsonValue) : Prop :=
  v = none ∨ v = some JsonValue.null ∨ v = some (JsonValue.str "")

/-- A text is an integer numeral: an optional sign followed by one or more decimal digits. -/
def IntegerNumeral (cs : List Char) : Prop :=
  ∃ sign ds : List Char, (sign = [] ∨ sign = ['-'] ∨ sign = ['+']) ∧ ds ≠ [] ∧
    (∀ c ∈ ds, c.isDigit = true) ∧ cs = sign ++ ds

/-- The number `x` is the integer `z`: `mantissa × 10 ^ exponent = |z|`, written without
fractions, and the sign of `z` is that of `x`. -/
def JsNumber.IntegerValue (x : JsNumber) (z : Int) : Prop :=
  x.mantissa * 10 ^ x.exponent.toNat = z.natAbs * 10 ^ (-x.exponent).toNat ∧
  (x.negative = true → z ≤ 0) ∧ (x.negative = false → 0 ≤ z)

/-- A field is an integer: it holds a number that is an integer, or a string that is an integer
numeral. -/
def IsInteger (v : Option JsonValue) : Prop :=
  (∃ (x : JsNumber) (z : Int), v = some (JsonValue.num x) ∧ x.IntegerValue z) ∨
  (∃ s : String, v = some (JsonValue.str s) ∧ IntegerNumeral s.data)

/-- A field is an integer written out in decimal digits: a number that is an integer of
magnitude below `10 ^ 21` (from there on JavaScript prints the exponent form), or a string that
is an integer numeral. -/
def IsWrittenInteger (v : Option JsonValue) : Prop :=
  (∃ (x : JsNumber) (z : Int), v = some (JsonValue.num x) ∧ x.IntegerValue z ∧
    z.natAbs < 10 ^ 21) ∨
  (∃ s : String, v = some (JsonValue.str s) ∧ IntegerNumeral s.data)

/-- The text a supplied title or author is stored as: a string as itself, a boolean as `true` or
`false`, a number as the text `String()` prints for it. -/
def StoredAsText (v : JsonValue) (t : String) : Prop :=
  (∀ s : String, v = JsonValue.str s → t = s) ∧
  (∀ c : Bool, v = JsonValue.bool c → t = if c then "true" else "false") ∧
  (∀ x : JsNumber, v = JsonValue.num x → t = ⟨numberText x⟩)

/-- The Number a supplied publicationYear is stored as: for a number that is the integer `z`,
and for a string that is the decimal expansion of `z`, the double nearest to `z`, which is `z`
itself when `|z| < 2 ^ 53`. -/
def StoredAsNumber (v : JsonValue) (y : StoredNumber) : Prop :=
  (∀ (x : JsNumber) (z : Int), v = JsonValue.num x → x.IntegerValue z →
    y = numberOfInt z ∧ (z.natAbs < 2 ^ 53 → y = StoredNumber.finite z)) ∧
  (∀ z : Int, v = JsonValue.str ⟨intChars z⟩ →
    y = numberOfInt z ∧ (z.natAbs < 2 ^ 53 → y = StoredNumber.finite z))

/-! ## Concrete libraries and states for evaluation -/

/-- A toy `bcrypt`: the hash is the password behind a marker. -/
def demoBcrypt : Bcrypt :=
  ⟨fun p _ _ => ⟨'#' :: p.data⟩, fun p h => decide (h.data = '#' :: p.data)⟩

/-- A toy `jsonwebtoken`: the token of user `n` is `n + 1` letters `j`, valid while the clock is
below the expiry the demo fixes at 3600. -/
def demoJwt : Jwt :=
  ⟨fun id _ _ => ⟨List.replicate (id + 1) 'j'⟩,
    fun t now =>
      if now < 3600 ∧ t.data ≠ [] ∧ t.data.all (fun c => decide (c = 'j')) = true then
        some (t.data.length - 1)
      else none⟩

/-- The value of a hexadecimal digit. -/
def hexDigit (c : Char) : Option Nat :=
  if c.isDigit then some (c.toNat - 48)
  else if 'a' ≤ c ∧ c ≤ 'f' then some (c.toNat - 87)
  else if 'A' ≤ c ∧ c ≤ 'F' then some (c.toNat - 55)
  else none

/-- The number a run of hexadecimal digits writes. -/
def hexValue : List Char → Option Nat
  | [] => some 0
  | cs =>
    cs.foldl (fun acc c => acc.bind (fun a => (hexDigit c).map (fun d => 16 * a + d)))
      (some 0)

/-- Casts for evaluation: an identifier is cast from its 24 hexadecimal digits, a year parameter
from an integer numeral. -/
def demoMongoose : Mongoose :=
  ⟨fun s => if s.data.length = 24 then hexValue s.data else none,
    fun s => if isIntChars s.data then some (numberOfInt (intValue s.data)) else none⟩

/-- An environment in which no store operation raises. -/
def calm : Env := ⟨0, 0, none, none, none⟩

/-- The empty database. -/
def emptyDb : Db := ⟨[], [], []⟩
/-! ## Lemmas on the string helpers -/

theorem stripStart_append (p t : List Char) : stripStart p (p ++ t) = some t := by
  induction p with
  | nil => cases t <;> rfl
  | cons c cs ih => simp [stripStart, ih]

theorem replaceFirstChars_start (p r t : List Char) :
    replaceFirstChars p r (p ++ t) = r ++ t := by
  have h := stripStart_append p t
  cases hpt : p ++ t with
  | nil => rw [hpt] at h; simp [replaceFirstChars, h]
  | cons c cs => rw [hpt] at h; simp [replaceFirstChars, h]

theorem jsReplace_bearer (t : String) : jsReplace ("Bearer " ++ t) "Bearer " "" = t := by
  unfold jsReplace
  rw [String.data_append, replaceFirstChars_start]
  rfl

theorem splitChars_without (sep : Char) (t : List Char) (h : sep ∉ t) :
    splitChars sep t = [t] := by
  induction t with
  | nil => rfl
  | cons c cs ih =>
    have hc : c ≠ sep := fun e => h (by simp [e])
    have hcs : sep ∉ cs := fun e => h (by simp [e])
    simp [splitChars, hc, ih hcs]

theorem splitChars_first (sep : Char) (a b : List Char) (h : sep ∉ a) :
    splitChars sep (a ++ sep :: b) = a :: splitChars sep b := by
  induction a with
  | nil => simp [splitChars]
  | cons c cs ih =>
    have hc : c ≠ sep := fun e => h (by simp [e])
    have hcs : sep ∉ cs := fun e => h (by simp [e])
    simp [splitChars, hc, ih hcs]

theorem bearerToken_bearer (t : String) (hne : t.data ≠ []) (hsp : ' ' ∉ t.data) :
    bearerToken (some ("Bearer " ++ t)) = some t := by
  have hd : ("Bearer " ++ t).data = "Bearer".data ++ ' ' :: t.data := by
    rw [String.data_append]; rfl
  have hb : ' ' ∉ "Bearer".data := by decide
  unfold bearerToken
  simp only [hd, splitChars_first ' ' _ _ hb, splitChars_without ' ' _ hsp]
  cases hdata : t.data with
  | nil => exact absurd hdata hne
  | cons c cs =>
    simp only [List.getElem?_cons_succ, List.getElem?_cons_zero]
    rw [← hdata]

theorem digitChar_isDigit (d : Nat) : (digitChar d).isDigit = true := by
  unfold digitChar
  split <;> decide

theorem natDigitsAux_digits (fuel n : Nat) :
    natDigitsAux fuel n ≠ [] ∧ (natDigitsAux fuel n).all Char.isDigit = true := by
  induction fuel generalizing n with
  | zero => simp [natDigitsAux, digitChar_isDigit]
  | succ k ih =>
    unfold natDigitsAux
    split
    · simp [digitChar_isDigit]
    · refine ⟨by simp, ?_⟩
      have h := (ih (n / 10)).2
      simp only [List.all_append, h, List.all_cons, digitChar_isDigit, List.all_nil,
        Bool.and_self]

theorem unsigned_digits (cs : List Char) (h : cs.all Char.isDigit = true) :
    unsigned cs = cs := by
  cases cs with
  | nil => rfl
  | cons c ds =>
    have hc : c.isDigit = true := by
      simp only [List.all_cons, Bool.and_eq_true] at h
      exact h.1
    have h1 : c ≠ '-' := fun e => by rw [e] at hc; exact absurd hc (by decide)
    have h2 : c ≠ '+' := fun e => by rw [e] at hc; exact absurd hc (by decide)
    simp [unsigned, h1, h2]

theorem natDigits_digits (n : Nat) :
    natDigits n ≠ [] ∧ (natDigits n).all Char.isDigit = true :=
  natDigitsAux_digits n n

theorem isIntChars_digits (ds : List Char) (hne : ds ≠ [])
    (hd : ds.all Char.isDigit = true) : isIntChars ds = true := by
  unfold isIntChars
  rw [unsigned_digits _ hd]
  cases ds with
  | nil => exact absurd rfl hne
  | cons c cs =>
    simp only [List.isEmpty_cons, Bool.not_false, Bool.true_and]
    exact hd

theorem isIntChars_intChars (z : Int) : isIntChars (intChars z) = true := by
  cases z with
  | ofNat n => exact isIntChars_digits _ (natDigits_digits n).1 (natDigits_digits n).2
  | negSucc n =>
    have h := natDigits_digits (n + 1)
    unfold isIntChars intChars
    have hu : unsigned ('-' :: natDigits (n + 1)) = natDigits (n + 1) := by
      simp [unsigned]
    rw [hu]
    cases hd : natDigits (n + 1) with
    | nil => exact absurd hd h.1
    | cons c cs =>
      have h2 := h.2
      rw [hd] at h2
      simp only [List.isEmpty_cons, Bool.not_false, Bool.true_and]
      exact h2
/-! ## Lemmas on numbers and their text -/

theorem dropZeros_spec (fuel m : Nat) (e : Int) (h : m ≤ fuel) :
    ∃ d : Nat, (dropZeros fuel m e).2 = e + d ∧ m = (dropZeros fuel m e).1 * 10 ^ d ∧
      (m ≠ 0 → (dropZeros fuel m e).1 % 10 ≠ 0) := by
  induction fuel generalizing m e with
  | zero =>
    have hm : m = 0 := Nat.le_zero.mp h
    subst hm
    exact ⟨0, by simp [dropZeros], by simp [dropZeros], fun hne => absurd rfl hne⟩
  | succ k ih =>
    unfold dropZeros
    by_cases hc : m ≠ 0 ∧ m % 10 = 0
    · rw [if_pos hc]
      have hle : m / 10 ≤ k := by omega
      obtain ⟨d, hd1, hd2, hd3⟩ := ih (m / 10) (e + 1) hle
      refine ⟨d + 1, ?_, ?_, ?_⟩
      · rw [hd1]; push_cast; ring
      · have hm : m = 10 * (m / 10) := by omega
        rw [pow_succ, ← Nat.mul_assoc, ← hd2]
        omega
      · intro _
        exact hd3 (by omega)
    · rw [if_neg hc]
      refine ⟨0, by simp, by simp, ?_⟩
      intro hne
      intro h0
      exact hc ⟨hne, h0⟩

theorem natDigitsAux_length (fuel n : Nat) (h : n ≤ fuel) :
    n < 10 ^ (natDigitsAux fuel n).length ∧
      (1 ≤ n → 10 ^ ((natDigitsAux fuel n).length - 1) ≤ n) := by
  induction fuel generalizing n with
  | zero =>
    have hn : n = 0 := Nat.le_zero.mp h
    subst hn
    simp [natDigitsAux]
  | succ k ih =>
    unfold natDigitsAux
    by_cases hlt : n < 10
    · rw [if_pos hlt]
      simp only [List.length_singleton, pow_one, Nat.sub_self, pow_zero]
      exact ⟨hlt, fun h1 => h1⟩
    · rw [if_neg hlt]
      have hle : n / 10 ≤ k := by omega
      obtain ⟨h1, h2⟩ := ih (n / 10) hle
      have hpos : 1 ≤ (natDigitsAux k (n / 10)).length := by
        have := (natDigitsAux_digits k (n / 10)).1
        cases hl : natDigitsAux k (n / 10) with
        | nil => exact absurd hl this
        | cons c cs => simp
      simp only [List.length_append, List.length_singleton, Nat.add_sub_cancel]
      constructor
      · rw [pow_succ]; omega
      · intro _
        have h3 := h2 (by omega)
        have hp : 10 ^ (natDigitsAux k (n / 10)).length =
            10 ^ ((natDigitsAux k (n / 10)).length - 1) * 10 := by
          rw [← pow_succ]; congr 1; omega
        rw [hp]; omega

theorem natDigits_length (n : Nat) :
    n < 10 ^ (natDigits n).length ∧ (1 ≤ n → 10 ^ ((natDigits n).length - 1) ≤ n) :=
  natDigitsAux_length n n (Nat.le_refl n)

theorem digitChar_value (d : Nat) (h : d < 10) : (digitChar d).toNat - 48 = d := by
  interval_cases d <;> rfl

theorem digitsValue_append (ds : List Char) (c : Char) :
    digitsValue (ds ++ [c]) = 10 * digitsValue ds + (c.toNat - 48) := by
  simp [digitsValue, List.foldl_append]

theorem digitsValue_natDigitsAux (fuel n : Nat) (h : n ≤ fuel) :
    digitsValue (natDigitsAux fuel n) = n := by
  induction fuel generalizing n with
  | zero =>
    have hn : n = 0 := Nat.le_zero.mp h
    subst hn
    rfl
  | succ k ih =>
    unfold natDigitsAux
    by_cases hlt : n < 10
    · rw [if_pos hlt]
      have := digitChar_value n hlt
      simp [digitsValue, this]
    · rw [if_neg hlt]
      rw [digitsValue_append, ih (n / 10) (by omega),
        digitChar_value (n % 10) (Nat.mod_lt _ (by decide))]
      omega

theorem digitsValue_natDigits (n : Nat) : digitsValue (natDigits n) = n :=
  digitsValue_natDigitsAux n n (Nat.le_refl n)

/-- The text of some numbers, as `String()` prints them: an integer, integers around `1e21`, a
fraction, small fractions on both sides of the exponent form, and negative numbers. -/
theorem numberText_examples :
    numberText ⟨false, 1965, 0, by decide⟩ = "1965".data ∧
    numberText ⟨false, 196, 1, by decide⟩ = "1960".data ∧
    numberText ⟨true, 0, 0, by decide⟩ = "0".data ∧
    numberText ⟨false, 123456789012345, 6, by decide⟩ = "123456789012345000000".data ∧
    numberText ⟨false, 1, 21, by decide⟩ = "1e+21".data ∧
    numberText ⟨true, 15, 20, by decide⟩ = "-1.5e+21".data ∧
    numberText ⟨false, 12345, 18, by decide⟩ = "1.2345e+22".data ∧
    numberText ⟨false, 195, -1, by decide⟩ = "19.5".data ∧
    numberText ⟨true, 5, -1, by decide⟩ = "-0.5".data ∧
    numberText ⟨false, 1, -6, by decide⟩ = "0.000001".data ∧
    numberText ⟨false, 1, -7, by decide⟩ = "1e-7".data ∧
    numberText ⟨false, 15, -8, by decide⟩ = "1.5e-7".data := by
  decide

/-- The double nearest to some integers: exact below `2 ^ 53`, ties to the even significand
above, and the value an integer text is cast to. -/
theorem nearestDouble_examples :
    nearestDouble 9007199254740991 = some 9007199254740991 ∧
    nearestDouble 9007199254740993 = some 9007199254740992 ∧
    nearestDouble 9007199254740995 = some 9007199254740996 ∧
    nearestDouble 18014398509481983 = some 18014398509481984 ∧
    nearestDouble 1152921504606846977 = some 1152921504606846976 ∧
    numberOfInt (-9007199254740993) = StoredNumber.finite (-9007199254740992) ∧
    intValue "+007".data = 7 ∧ intValue "-1965".data = -1965 := by
  decide

set_option maxRecDepth 100000 in
/-- An integer beyond the range of the doubles is cast to an infinity; just below the bound it
is rounded to the largest double. -/
theorem nearestDouble_overflow :
    nearestDouble ((10 ^ 103) ^ 3) = none ∧
    numberOfInt (-(((10 ^ 103) ^ 3 : Nat) : Int)) = StoredNumber.infinity true ∧
    nearestDouble ((2 ^ 128) ^ 8 - 1) = none ∧
    nearestDouble ((2 ^ 128) ^ 8 - (2 ^ 97) ^ 10 - 1) =
      some ((2 ^ 128) ^ 8 - (2 ^ 97) ^ 10 * 2) := by
  decide

theorem isIntChars_head_digit (c : Char) (rest : List Char) (hc : c.isDigit = true) :
    isIntChars (c :: rest) = rest.all Char.isDigit ∧
      isIntChars ('-' :: c :: rest) = rest.all Char.isDigit := by
  have h1 : c ≠ '-' := fun e => by rw [e] at hc; exact absurd hc (by decide)
  have h2 : c ≠ '+' := fun e => by rw [e] at hc; exact absurd hc (by decide)
  constructor
  · simp [isIntChars, unsigned, h1, h2, hc]
  · simp [isIntChars, unsigned, hc]

theorem all_false_of_mem (l : List Char) (x : Char) (hx : x ∈ l) (hd : x.isDigit = false) :
    l.all Char.isDigit = false := by
  cases h : l.all Char.isDigit with
  | false => rfl
  | true =>
    have := List.all_eq_true.mp h x hx
    rw [hd] at this
    exact absurd this (by decide)

theorem decimalText_shape (ds : List Char) (n : Int) (hne : ds ≠ [])
    (hd : ds.all Char.isDigit = true) :
    ∃ (c : Char) (rest : List Char), decimalText ds n = c :: rest ∧ c.isDigit = true ∧
      (rest.all Char.isDigit = true ↔ ((ds.length : Int) ≤ n ∧ n ≤ 21)) := by
  cases ds with
  | nil => exact absurd rfl hne
  | cons d ds' =>
    have hdd : d.isDigit = true := by
      simp only [List.all_cons, Bool.and_eq_true] at hd; exact hd.1
    have hds' : ds'.all Char.isDigit = true := by
      simp only [List.all_cons, Bool.and_eq_true] at hd; exact hd.2
    unfold decimalText
    by_cases h6 : ((d :: ds').length : Int) ≤ n ∧ n ≤ 21
    · rw [if_pos h6]
      refine ⟨d, ds' ++ List.replicate (n - ((d :: ds').length : Int)).toNat '0', rfl, hdd, ?_⟩
      constructor
      · intro _; exact h6
      · intro _
        rw [List.all_append, hds']
        simp only [Bool.true_and, List.all_eq_true]
        intro x hx
        rw [List.eq_of_mem_replicate hx]
        decide
    · rw [if_neg h6]
      by_cases h7 : 0 < n ∧ n ≤ 21
      · rw [if_pos h7]
        obtain ⟨m, hm⟩ : ∃ m : Nat, n.toNat = m + 1 := ⟨n.toNat - 1, by omega⟩
        rw [hm]
        refine ⟨d, ds'.take m ++ '.' :: ds'.drop m, by simp, hdd, ?_⟩
        constructor
        · intro h
          have := all_false_of_mem (ds'.take m ++ '.' :: ds'.drop m) '.' (by simp) (by decide)
          rw [this] at h
          exact absurd h (by decide)
        · intro h; exact absurd h h6
      · rw [if_neg h7]
        by_cases h8 : -6 < n ∧ n ≤ 0
        · rw [if_pos h8]
          refine ⟨'0', '.' :: (List.replicate (-n).toNat '0' ++ d :: ds'), rfl, by decide, ?_⟩
          constructor
          · intro h
            have := all_false_of_mem ('.' :: (List.replicate (-n).toNat '0' ++ d :: ds')) '.'
              (by simp) (by decide)
            rw [this] at h
            exact absurd h (by decide)
          · intro h; exact absurd h h6
        · rw [if_neg h8]
          cases ds' with
          | nil =>
            refine ⟨d, 'e' :: exponentChars (n - 1), rfl, hdd, ?_⟩
            constructor
            · intro h
              have := all_false_of_mem ('e' :: exponentChars (n - 1)) 'e' (by simp) (by decide)
              rw [this] at h
              exact absurd h (by decide)
            · intro h; exact absurd h h6
          | cons d2 ds'' =>
            refine ⟨d, '.' :: ((d2 :: ds'') ++ 'e' :: exponentChars (n - 1)), rfl, hdd, ?_⟩
            constructor
            · intro h
              have := all_false_of_mem ('.' :: ((d2 :: ds'') ++ 'e' :: exponentChars (n - 1)))
                '.' (by simp) (by decide)
              rw [this] at h
              exact absurd h (by decide)
            · intro h; exact absurd h h6

theorem numberText_ne_nil (x : JsNumber) : numberText x ≠ [] := by
  unfold numberText
  split
  · simp
  · split
    · simp
    · obtain ⟨c, rest, h, _, _⟩ := decimalText_shape
        (natDigits (dropZeros x.mantissa x.mantissa x.exponent).1)
        ((dropZeros x.mantissa x.mantissa x.exponent).2 +
          (natDigits (dropZeros x.mantissa x.mantissa x.exponent).1).length)
        (natDigits_digits _).1 (natDigits_digits _).2
      rw [h]; simp

theorem isIntChars_numberText (x : JsNumber) :
    isIntChars (numberText x) = true ↔
      (x.mantissa = 0 ∨
        (0 ≤ (dropZeros x.mantissa x.mantissa x.exponent).2 ∧
          (dropZeros x.mantissa x.mantissa x.exponent).2 +
            (natDigits (dropZeros x.mantissa x.mantissa x.exponent).1).length ≤ 21)) := by
  unfold numberText
  by_cases hm : x.mantissa = 0
  · rw [if_pos hm]
    exact ⟨fun _ => Or.inl hm, fun _ => by decide⟩
  · rw [if_neg hm]
    obtain ⟨c, rest, h, hc, hiff⟩ := decimalText_shape
      (natDigits (dropZeros x.mantissa x.mantissa x.exponent).1)
      ((dropZeros x.mantissa x.mantissa x.exponent).2 +
        (natDigits (dropZeros x.mantissa x.mantissa x.exponent).1).length)
      (natDigits_digits _).1 (natDigits_digits _).2
    have hshape : (rest.all Char.isDigit = true) ↔
        (0 ≤ (dropZeros x.mantissa x.mantissa x.exponent).2 ∧
          (dropZeros x.mantissa x.mantissa x.exponent).2 +
            (natDigits (dropZeros x.mantissa x.mantissa x.exponent).1).length ≤ 21) := by
      rw [hiff]
      constructor
      · intro ⟨h1, h2⟩; exact ⟨by omega, h2⟩
      · intro ⟨h1, h2⟩; exact ⟨by omega, h2⟩
    have hhead := isIntChars_head_digit c rest hc
    split
    · rw [h, hhead.2, hshape]
      exact ⟨fun hh => Or.inr hh, fun hh => hh.resolve_left hm⟩
    · rw [h, hhead.1, hshape]
      exact ⟨fun hh => Or.inr hh, fun hh => hh.resolve_left hm⟩

theorem integral_of_zero (x : JsNumber) (hm : x.mantissa = 0) : x.integral = some 0 := by
  simp [JsNumber.integral, hm]

theorem integral_exponents (x : JsNumber) (d : Nat)
    (hd1 : (dropZeros x.mantissa x.mantissa x.exponent).2 = x.exponent + d)
    (hpos : 0 ≤ (dropZeros x.mantissa x.mantissa x.exponent).2) :
    (dropZeros x.mantissa x.mantissa x.exponent).2.toNat + (-x.exponent).toNat =
      d + x.exponent.toNat := by
  omega

theorem integral_iff (x : JsNumber) (z : Int) : x.integral = some z ↔ x.IntegerValue z := by
  by_cases hm : x.mantissa = 0
  · rw [integral_of_zero x hm]
    unfold JsNumber.IntegerValue
    rw [hm]
    constructor
    · intro h
      simp only [Option.some.injEq] at h
      subst h
      simp
    · intro ⟨h, _, _⟩
      simp only [zero_mul] at h
      have hz : z.natAbs = 0 := by
        rcases Nat.mul_eq_zero.mp h.symm with h0 | h0
        · exact h0
        · exact absurd h0 (by positivity)
      have : z = 0 := Int.natAbs_eq_zero.mp hz
      rw [this]
  · obtain ⟨d, hd1, hd2, hd3⟩ := dropZeros_spec x.mantissa x.mantissa x.exponent (Nat.le_refl _)
    have hs := hd3 hm
    unfold JsNumber.IntegerValue JsNumber.integral
    rw [if_neg hm]
    constructor
    · intro h
      by_cases hpos : 0 ≤ (dropZeros x.mantissa x.mantissa x.exponent).2
      · rw [if_pos hpos] at h
        simp only [Option.some.injEq] at h
        have hsum := integral_exponents x d hd1 hpos
        have hval : x.mantissa * 10 ^ x.exponent.toNat =
            ((dropZeros x.mantissa x.mantissa x.exponent).1 *
              10 ^ (dropZeros x.mantissa x.mantissa x.exponent).2.toNat) *
              10 ^ (-x.exponent).toNat := by
          conv_lhs => rw [hd2]
          rw [Nat.mul_assoc, Nat.mul_assoc, ← pow_add, ← pow_add, hsum]
        cases hneg : x.negative with
        | true =>
          rw [hneg] at h
          simp only [if_true] at h
          subst h
          refine ⟨?_, (fun _ => Int.neg_nonpos_of_nonneg (Int.ofNat_nonneg _)), (fun hh => by cases hh)⟩
          rw [Int.natAbs_neg, Int.natAbs_ofNat]
          exact hval
        | false =>
          rw [hneg] at h
          simp only [Bool.false_eq_true, if_false] at h
          subst h
          refine ⟨?_, (fun hh => by cases hh), (fun _ => Int.ofNat_nonneg _)⟩
          rw [Int.natAbs_ofNat]
          exact hval
      · rw [if_neg hpos] at h
        cases h
    · intro ⟨hv, hn, hp⟩
      have hpos : 0 ≤ (dropZeros x.mantissa x.mantissa x.exponent).2 := by
        by_contra hneg
        have ha : x.exponent.toNat = 0 := by omega
        have hb : d < (-x.exponent).toNat := by omega
        rw [ha, pow_zero, Nat.mul_one] at hv
        obtain ⟨j, hj⟩ : ∃ j : Nat, (-x.exponent).toNat = d + (j + 1) :=
          ⟨(-x.exponent).toNat - d - 1, by omega⟩
        rw [hj, pow_add, ← Nat.mul_assoc] at hv
        rw [hd2] at hv
        have hpow : 0 < 10 ^ d := by positivity
        have hs2 : (dropZeros x.mantissa x.mantissa x.exponent).1 =
            z.natAbs * 10 ^ (j + 1) := by
          have h3 : (dropZeros x.mantissa x.mantissa x.exponent).1 * 10 ^ d =
              (z.natAbs * 10 ^ (j + 1)) * 10 ^ d := by
            rw [hv]; ring
          exact Nat.eq_of_mul_eq_mul_right hpow h3
        apply hs
        rw [hs2, pow_succ, ← Nat.mul_assoc]
        exact Nat.mul_mod_left _ _
      rw [if_pos hpos]
      have hsum := integral_exponents x d hd1 hpos
      have hval : z.natAbs * 10 ^ (-x.exponent).toNat =
          ((dropZeros x.mantissa x.mantissa x.exponent).1 *
            10 ^ (dropZeros x.mantissa x.mantissa x.exponent).2.toNat) *
            10 ^ (-x.exponent).toNat := by
        rw [← hv]
        conv_lhs => rw [hd2]
        rw [Nat.mul_assoc, Nat.mul_assoc, ← pow_add, ← pow_add, hsum]
      have habs : z.natAbs = (dropZeros x.mantissa x.mantissa x.exponent).1 *
          10 ^ (dropZeros x.mantissa x.mantissa x.exponent).2.toNat :=
        Nat.eq_of_mul_eq_mul_right (by positivity) hval
      congr 1
      cases hneg : x.negative with
      | true =>
        simp only [if_true]
        have := hn hneg
        rw [← habs]
        omega
      | false =>
        simp only [Bool.false_eq_true, if_false]
        have := hp hneg
        rw [← habs]
        omega

theorem isInt_num_iff (x : JsNumber) :
    isIntChars (numberText x) = true ↔ ∃ z : Int, x.IntegerValue z ∧ z.natAbs < 10 ^ 21 := by
  rw [isIntChars_numberText]
  by_cases hm : x.mantissa = 0
  · constructor
    · intro _
      exact ⟨0, (integral_iff x 0).mp (integral_of_zero x hm), by simp⟩
    · intro _; exact Or.inl hm
  · obtain ⟨d, hd1, hd2, hd3⟩ := dropZeros_spec x.mantissa x.mantissa x.exponent (Nat.le_refl _)
    have hs0 : (dropZeros x.mantissa x.mantissa x.exponent).1 ≠ 0 := by
      intro h0
      rw [h0, Nat.zero_mul] at hd2
      exact hm hd2
    have hlen := natDigits_length (dropZeros x.mantissa x.mantissa x.exponent).1
    have hk : 1 ≤ (natDigits (dropZeros x.mantissa x.mantissa x.exponent).1).length := by
      have := (natDigits_digits (dropZeros x.mantissa x.mantissa x.exponent).1).1
      cases hl : natDigits (dropZeros x.mantissa x.mantissa x.exponent).1 with
      | nil => exact absurd hl this
      | cons c cs => simp
    constructor
    · intro h
      have hpos : 0 ≤ (dropZeros x.mantissa x.mantissa x.exponent).2 :=
        (h.resolve_left hm).1
      have hle := (h.resolve_left hm).2
      have hint : x.integral = some (if x.negative then
          -(((dropZeros x.mantissa x.mantissa x.exponent).1 *
            10 ^ (dropZeros x.mantissa x.mantissa x.exponent).2.toNat : Nat) : Int)
          else (((dropZeros x.mantissa x.mantissa x.exponent).1 *
            10 ^ (dropZeros x.mantissa x.mantissa x.exponent).2.toNat : Nat) : Int)) := by
        simp [JsNumber.integral, hm, hpos]
      refine ⟨_, (integral_iff x _).mp hint, ?_⟩
      have habs : (if x.negative then
          -(((dropZeros x.mantissa x.mantissa x.exponent).1 *
            10 ^ (dropZeros x.mantissa x.mantissa x.exponent).2.toNat : Nat) : Int)
          else (((dropZeros x.mantissa x.mantissa x.exponent).1 *
            10 ^ (dropZeros x.mantissa x.mantissa x.exponent).2.toNat : Nat) : Int)).natAbs =
          (dropZeros x.mantissa x.mantissa x.exponent).1 *
            10 ^ (dropZeros x.mantissa x.mantissa x.exponent).2.toNat := by
        split
        · rw [Int.natAbs_neg, Int.natAbs_ofNat]
        · rw [Int.natAbs_ofNat]
      rw [habs]
      calc (dropZeros x.mantissa x.mantissa x.exponent).1 *
            10 ^ (dropZeros x.mantissa x.mantissa x.exponent).2.toNat
          < 10 ^ (natDigits (dropZeros x.mantissa x.mantissa x.exponent).1).length *
            10 ^ (dropZeros x.mantissa x.mantissa x.exponent).2.toNat :=
            Nat.mul_lt_mul_of_pos_right hlen.1 (by positivity)
        _ = 10 ^ ((natDigits (dropZeros x.mantissa x.mantissa x.exponent).1).length +
            (dropZeros x.mantissa x.mantissa x.exponent).2.toNat) := by rw [pow_add]
        _ ≤ 10 ^ 21 := Nat.pow_le_pow_right (by decide) (by omega)
    · rintro ⟨z, hz, hlt⟩
      right
      have hint := (integral_iff x z).mpr hz
      unfold JsNumber.integral at hint
      rw [if_neg hm] at hint
      by_cases hpos : 0 ≤ (dropZeros x.mantissa x.mantissa x.exponent).2
      · refine ⟨hpos, ?_⟩
        rw [if_pos hpos] at hint
        simp only [Option.some.injEq] at hint
        have habs : z.natAbs = (dropZeros x.mantissa x.mantissa x.exponent).1 *
            10 ^ (dropZeros x.mantissa x.mantissa x.exponent).2.toNat := by
          rw [← hint]
          split
          · rw [Int.natAbs_neg, Int.natAbs_ofNat]
          · rw [Int.natAbs_ofNat]
        rw [habs] at hlt
        have hlow := hlen.2 (Nat.one_le_iff_ne_zero.mpr hs0)
        have h1 : 10 ^ ((natDigits (dropZeros x.mantissa x.mantissa x.exponent).1).length - 1 +
            (dropZeros x.mantissa x.mantissa x.exponent).2.toNat) < 10 ^ 21 := by
          rw [pow_add]
          exact Nat.lt_of_le_of_lt (Nat.mul_le_mul_right _ hlow) hlt
        have h2 := (Nat.pow_lt_pow_iff_right (by decide : 1 < 10)).mp h1
        omega
      · rw [if_neg hpos] at hint
        cases hint

theorem numberOfInt_safe (z : Int) (h : z.natAbs < 2 ^ 53) :
    numberOfInt z = StoredNumber.finite z := by
  unfold numberOfInt nearestDouble
  rw [if_pos h]
  simp only
  congr 1
  split <;> omega

theorem intValue_digits (c : Char) (ds : List Char) (hc : c.isDigit = true) :
    intValue (c :: ds) = ((digitsValue (c :: ds) : Nat) : Int) := by
  have h1 : c ≠ '-' := fun e => by rw [e] at hc; exact absurd hc (by decide)
  have h2 : c ≠ '+' := fun e => by rw [e] at hc; exact absurd hc (by decide)
  simp [intValue, h1, h2]

theorem intValue_natDigits (n : Nat) : intValue (natDigits n) = (n : Int) := by
  have h := natDigits_digits n
  cases hd : natDigits n with
  | nil => exact absurd hd h.1
  | cons c cs =>
    have hc : c.isDigit = true := by
      have h2 := h.2
      rw [hd] at h2
      simp only [List.all_cons, Bool.and_eq_true] at h2
      exact h2.1
    rw [intValue_digits c cs hc, ← hd, digitsValue_natDigits]

theorem intValue_intChars (z : Int) : intValue (intChars z) = z := by
  cases z with
  | ofNat n => exact intValue_natDigits n
  | negSucc n =>
    show intValue ('-' :: natDigits (n + 1)) = Int.negSucc n
    simp only [intValue, if_true]
    rw [digitsValue_natDigits]
    rfl

theorem castNumber_str_intChars (z : Int) :
    castNumber (JsonValue.str ⟨intChars z⟩) = some (numberOfInt z) := by
  simp [castNumber, isIntChars_intChars, intValue_intChars]

theorem castNumber_num (x : JsNumber) (z : Int) (h : x.IntegerValue z) :
    castNumber (JsonValue.num x) = some (numberOfInt z) := by
  simp [castNumber, (integral_iff x z).mpr h]

theorem castString_of_notEmpty (v : JsonValue) (h : notEmpty (some v) = true) :
    ∃ t, castString v = some t := by
  cases v with
  | null => exact absurd h (by decide)
  | bool b => exact ⟨_, rfl⟩
  | num n => exact ⟨_, rfl⟩
  | str t => exact ⟨_, rfl⟩

theorem castNumber_of_isInt (v : JsonValue) (h : isInt (some v) = true) :
    ∃ n, castNumber v = some n := by
  cases v with
  | null => exact absurd h (by decide)
  | bool b => exact ⟨_, rfl⟩
  | num x =>
    have h2 : isIntChars (numberText x) = true := h
    obtain ⟨z, hz, _⟩ := (isInt_num_iff x).mp h2
    exact ⟨_, castNumber_num x z hz⟩
  | str t =>
    have h2 : isIntChars t.data = true := h
    exact ⟨numberOfInt (intValue t.data), by simp [castNumber, h2]⟩

/-! ## Validation -/

theorem notEmpty_eq_false_iff (v : Option JsonValue) :
    notEmpty v = false ↔ MissingOrEmpty v := by
  cases v with
  | none => exact ⟨fun _ => Or.inl rfl, fun _ => rfl⟩
  | some x =>
    cases x with
    | null => exact ⟨fun _ => Or.inr (Or.inl rfl), fun _ => rfl⟩
    | bool b =>
      constructor
      · intro h; cases b <;> exact absurd h (by decide)
      · intro h; rcases h with h | h | h <;> simp at h
    | num n =>
      constructor
      · intro h
        have hne := numberText_ne_nil n
        have h2 : numberText n = [] := by simpa [notEmpty, fieldText] using h
        exact absurd h2 hne
      · intro h; rcases h with h | h | h <;> simp at h
    | str t =>
      constructor
      · intro h
        have h2 : t.data = [] := by simpa [notEmpty, fieldText] using h
        have ht : t = "" := String.ext h2
        rw [ht]
        exact Or.inr (Or.inr rfl)
      · intro h
        rcases h with h | h | h
        · simp at h
        · simp at h
        · simp only [Option.some.injEq, JsonValue.str.injEq] at h
          rw [h]; rfl

theorem isIntChars_signed (c : Char) (ds : List Char) (h : c = '-' ∨ c = '+') :
    isIntChars (c :: ds) = (!ds.isEmpty && ds.all Char.isDigit) := by
  simp [isIntChars, unsigned, h]

theorem isIntChars_iff (cs : List Char) : isIntChars cs = true ↔ IntegerNumeral cs := by
  constructor
  · intro h
    cases cs with
    | nil => exact absurd h (by decide)
    | cons c ds =>
      by_cases hc : c = '-' ∨ c = '+'
      · rw [isIntChars_signed c ds hc] at h
        simp only [Bool.and_eq_true, Bool.not_eq_true', List.isEmpty_eq_false,
          List.all_eq_true] at h
        refine ⟨[c], ds, ?_, h.1, h.2, rfl⟩
        rcases hc with e | e
        · exact Or.inr (Or.inl (by rw [e]))
        · exact Or.inr (Or.inr (by rw [e]))
      · have hu : unsigned (c :: ds) = c :: ds := by simp [unsigned, hc]
        unfold isIntChars at h
        rw [hu] at h
        simp only [List.isEmpty_cons, Bool.not_false, Bool.true_and, List.all_eq_true] at h
        exact ⟨[], c :: ds, Or.inl rfl, by simp, h, rfl⟩
  · rintro ⟨sign, ds, hsign, hne, hd, rfl⟩
    have hall : ds.all Char.isDigit = true := List.all_eq_true.mpr hd
    have hrest : (!ds.isEmpty && ds.all Char.isDigit) = true := by
      cases ds with
      | nil => exact absurd rfl hne
      | cons c cs => simpa using hall
    rcases hsign with e | e | e
    · subst e; exact isIntChars_digits ds hne hall
    · subst e
      show isIntChars ('-' :: ds) = true
      rw [isIntChars_signed _ _ (Or.inl rfl)]; exact hrest
    · subst e
      show isIntChars ('+' :: ds) = true
      rw [isIntChars_signed _ _ (Or.inr rfl)]; exact hrest

theorem isInt_iff (v : Option JsonValue) : isInt v = true ↔ IsWrittenInteger v := by
  cases v with
  | none =>
    constructor
    · intro h; exact absurd h (by decide)
    · intro h; rcases h with ⟨x, z, h, _⟩ | ⟨t, h, _⟩ <;> simp at h
  | some y =>
    cases y with
    | null =>
      constructor
      · intro h; exact absurd h (by decide)
      · intro h; rcases h with ⟨x, z, h, _⟩ | ⟨t, h, _⟩ <;> simp at h
    | bool b =>
      constructor
      · intro h; cases b <;> exact absurd h (by decide)
      · intro h; rcases h with ⟨x, z, h, _⟩ | ⟨t, h, _⟩ <;> simp at h
    | num n =>
      constructor
      · intro h
        have h2 : isIntChars (numberText n) = true := h
        obtain ⟨z, hz, hlt⟩ := (isInt_num_iff n).mp h2
        exact Or.inl ⟨n, z, rfl, hz, hlt⟩
      · intro h
        rcases h with ⟨x, z, h, hz, hlt⟩ | ⟨t, h, _⟩
        · simp only [Option.some.injEq, JsonValue.num.injEq] at h
          subst h
          exact (isInt_num_iff n).mpr ⟨z, hz, hlt⟩
        · simp at h
    | str t =>
      constructor
      · intro h
        exact Or.inr ⟨t, rfl, (isIntChars_iff t.data).mp h⟩
      · intro h
        rcases h with ⟨x, z, h, _⟩ | ⟨t', h, hn⟩
        · simp at h
        · simp only [Option.some.injEq, JsonValue.str.injEq] at h
          subst h
          exact (isIntChars_iff t.data).mpr hn
/-! ## Lemmas on the store operations -/

theorem le_foldr_max (ids : List Id) (i : Id) (h : i ∈ ids) : i ≤ ids.foldr max 0 := by
  induction ids with
  | nil => cases h
  | cons a l ih =>
    simp only [List.foldr_cons]
    rcases List.mem_cons.mp h with e | e
    · subst e
      exact Nat.le_max_left _ _
    · exact Nat.le_trans (ih e) (Nat.le_max_right _ _)

theorem lt_freshId (ids : List Id) (i : Id) (h : i ∈ ids) : i < freshId ids :=
  Nat.lt_succ_of_le (le_foldr_max ids i h)
/-! ## The middleware `auth` -/

theorem auth_users_only (jwt : Jwt) (env : Env) (users : List User) (b1 b2 : List Book)
    (l1 l2 : List BlacklistedToken) (authorization : Option String) :
    auth jwt env ⟨users, b1, l1⟩ authorization = auth jwt env ⟨users, b2, l2⟩ authorization :=
  rfl

theorem auth_reject_status (jwt : Jwt) (env : Env) (db : Db) (authorization : Option String)
    (r : Response) (h : auth jwt env db authorization = AuthOutcome.reject r) :
    r.status = 401 ∨ r.status = 403 ∨ r.status = 404 := by
  unfold auth at h
  split at h
  · injection h with h; subst h; exact Or.inl rfl
  · split at h
    · injection h with h; subst h; exact Or.inr (Or.inl rfl)
    · split at h
      · injection h with h; subst h; exact Or.inr (Or.inl rfl)
      · split at h
        · injection h with h; subst h; exact Or.inr (Or.inr rfl)
        · cases h

/-- When the user lookup completes, `auth` decides in the order of its source: no token read
from the header, 401; a token that fails verification, 403; a verified token whose user is not
stored, 404; otherwise the stored user is attached and the next stage runs. -/
theorem auth_when_lookup_completes (jwt : Jwt) (env : Env) (db : Db)
    (authorization : Option String) (hstore : env.usersFault = none) :
    (bearerToken authorization = none →
      auth jwt env db authorization =
        AuthOutcome.reject ⟨401, Body.text "Access denied. No token provided."⟩) ∧
    (∀ t, bearerToken authorization = some t → jwt.verify t env.now = none →
      auth jwt env db authorization = AuthOutcome.reject ⟨403, Body.text "Invalid token."⟩) ∧
    (∀ t userId, bearerToken authorization = some t → jwt.verify t env.now = some userId →
      (∀ u ∈ db.users, u.id ≠ userId) →
      auth jwt env db authorization = AuthOutcome.reject ⟨404, Body.text "User not found."⟩) ∧
    (∀ t userId, bearerToken authorization = some t → jwt.verify t env.now = some userId →
      (∃ u ∈ db.users, u.id = userId) →
      ∃ u ∈ db.users, u.id = userId ∧ auth jwt env db authorization = AuthOutcome.next u) := by
  refine ⟨?_, ?_, ?_, ?_⟩
  · intro h
    simp [auth, h]
  · intro t h hv
    simp [auth, h, hv]
  · intro t userId h hv hnone
    have hf : db.users.find? (fun u => decide (u.id = userId)) = none := by
      rw [List.find?_eq_none]
      intro u hu
      simpa using hnone u hu
    simp [auth, h, hv, hstore, hf]
  · intro t userId h hv hex
    cases hf : db.users.find? (fun u => decide (u.id = userId)) with
    | none =>
      rw [List.find?_eq_none] at hf
      obtain ⟨u, hu, hid⟩ := hex
      exact absurd hid (by simpa using hf u hu)
    | some u =>
      refine ⟨u, List.mem_of_find?_eq_some hf, ?_, ?_⟩
      · simpa using List.find?_some hf
      · simp [auth, h, hv, hstore, hf]

/-- C1: a request whose token verifies, met by a user lookup that raises (the database cannot be
reached), is answered 403 "Invalid token." by `auth`: a 403 with verification succeeded.  The
same request is accepted when the lookup completes. -/
theorem auth_lookup_error_answered_403 :
    demoJwt.verify "j" 0 = some 0 ∧
    auth demoJwt ⟨0, 0, some "Operation users.findOne() buffering timed out", none, none⟩
        ⟨[⟨0, "ann", "ann@x", "#pw"⟩], [], []⟩ (some "Bearer j") =
      AuthOutcome.reject ⟨403, Body.text "Invalid token."⟩ ∧
    auth demoJwt calm ⟨[⟨0, "ann", "ann@x", "#pw"⟩], [], []⟩ (some "Bearer j") =
      AuthOutcome.next ⟨0, "ann", "ann@x", "#pw"⟩ := by
  decide

/-- C2: on every request to one of the six book routes on which `auth` rejects, the response is
that rejection with status 401, 403 or 404, the database is left as it was, and the outcome is
the same whatever the Book collection holds: no book handler has run. -/
theorem bookRouter_behind_auth (jwt : Jwt) (mg : Mongoose) (env : Env) (db : Db)
    (authorization : Option String) (rq : BookRequest) (r : Response)
    (h : auth jwt env db authorization = AuthOutcome.reject r) :
    bookRouter jwt mg env db authorization rq = (Result.sent r, db) ∧
    (r.status = 401 ∨ r.status = 403 ∨ r.status = 404) ∧
    ∀ books : List Book,
      bookRouter jwt mg env ⟨db.users, books, db.blacklist⟩ authorization rq =
        (Result.sent r, ⟨db.users, books, db.blacklist⟩) := by
  refine ⟨?_, auth_reject_status jwt env db authorization r h, ?_⟩
  · simp [bookRouter, h]
  · intro books
    have h2 : auth jwt env ⟨db.users, books, db.blacklist⟩ authorization =
        AuthOutcome.reject r := by
      rw [← h]
      exact auth_users_only jwt env db.users books db.books db.blacklist db.blacklist
        authorization
    simp [bookRouter, h2]

/-- Witness of C2: a request without an Authorization header to `DELETE /book/000000000000000000000001`. -/
theorem bookRouter_behind_auth_witness :
    bookRouter demoJwt demoMongoose calm
        ⟨[], [⟨1, "Dune", "Herbert", StoredNumber.finite 1965⟩], []⟩ none
        (BookRequest.remove "000000000000000000000001") =
      (Result.sent ⟨401, Body.text "Access denied. No token provided."⟩,
        ⟨[], [⟨1, "Dune", "Herbert", StoredNumber.finite 1965⟩], []⟩) :=
  (bookRouter_behind_auth demoJwt demoMongoose calm
    ⟨[], [⟨1, "Dune", "Herbert", StoredNumber.finite 1965⟩], []⟩
    none (BookRequest.remove "000000000000000000000001")
    ⟨401, Body.text "Access denied. No token provided."⟩
    (by decide)).1

/-- C10: the outcome of `auth` is the same for any two states of the Token Denylist; and when
`POST /user/logout` with `Authorization: Bearer t` answers 200 it has recorded `t` with
`expiresAt` the logout time and nothing else has changed, so `auth` answers a request bearing
`t` as before: a request accepted before the logout is accepted after it. -/
theorem auth_ignores_blacklist (jwt : Jwt) (env : Env) (users : List User) (books : List Book)
    (authorization : Option String) :
    (∀ bl1 bl2 : List BlacklistedToken,
      auth jwt env ⟨users, books, bl1⟩ authorization =
        auth jwt env ⟨users, books, bl2⟩ authorization) ∧
    (∀ (envOut : Env) (bl : List BlacklistedToken) (t : String) (body : Body) (db' : Db),
      logout envOut ⟨users, books, bl⟩ (some ("Bearer " ++ t)) =
          (Result.sent ⟨200, body⟩, db') →
        db' = ⟨users, books, bl ++ [⟨t, envOut.now⟩]⟩ ∧
        ∀ user : User,
          auth jwt env ⟨users, books, bl⟩ (some ("Bearer " ++ t)) = AuthOutcome.next user →
          auth jwt env db' (some ("Bearer " ++ t)) = AuthOutcome.next user) := by
  refine ⟨fun bl1 bl2 => rfl, ?_⟩
  intro envOut bl t body db' hout
  have hdb : db' = ⟨users, books, bl ++ [⟨t, envOut.now⟩]⟩ := by
    unfold logout at hout
    simp only [jsReplace_bearer] at hout
    split at hout
    · simp at hout
    · split at hout
      · simp at hout
      · split at hout
        · simp at hout
        · simp only [Prod.mk.injEq] at hout
          exact hout.2.symm
  refine ⟨hdb, ?_⟩
  intro user hacc
  rw [hdb, ← hacc]
  rfl

/-- Witness of C10: the user of token `j` logs out and the token is accepted afterwards. -/
theorem auth_ignores_blacklist_witness :
    logout calm ⟨[⟨0, "ann", "ann@x", "#pw"⟩], [], []⟩ (some ("Bearer " ++ "j")) =
      (Result.sent ⟨200, Body.text "Logout successful."⟩,
        ⟨[⟨0, "ann", "ann@x", "#pw"⟩], [], [⟨"j", 0⟩]⟩) ∧
    auth demoJwt calm ⟨[⟨0, "ann", "ann@x", "#pw"⟩], [], [⟨"j", 0⟩]⟩
        (some ("Bearer " ++ "j")) =
      AuthOutcome.next ⟨0, "ann", "ann@x", "#pw"⟩ :=
  ⟨by decide,
    ((auth_ignores_blacklist demoJwt calm [⟨0, "ann", "ann@x", "#pw"⟩] [] none).2 calm []
      "j" (Body.text "Logout successful.") ⟨[⟨0, "ann", "ann@x", "#pw"⟩], [], [⟨"j", 0⟩]⟩
      (by decide)).2 ⟨0, "ann", "ann@x", "#pw"⟩ (by decide)⟩

/-! ## Signup, login and the token -/

theorem find?_skip {α : Type} (p : α → Bool) (l1 l2 : List α) (h : ∀ x ∈ l1, p x = false) :
    (l1 ++ l2).find? p = l2.find? p := by
  induction l1 with
  | nil => rfl
  | cons a l ih =>
    have ha : p a = false := h a (by simp)
    have hl : ∀ x ∈ l, p x = false := fun x hx => h x (by simp [hx])
    simp [List.find?, ha, ih hl]

/-- C3, against the claim as stated: two signups with one email both succeed; the second user is
stored, the password "pw1" does not match the second user's hash, and yet the login with the
second user's email and "pw1" answers 200 with a token (the first user's). -/
theorem login_wrong_password_counterexample :
    signup demoBcrypt calm emptyDb ⟨"ann", "a@x", some "pw1"⟩ =
      (Result.sent ⟨201, Body.registered "User has been registered successfully"
          ⟨1, "ann", "a@x", "#pw1"⟩⟩,
        ⟨[⟨1, "ann", "a@x", "#pw1"⟩], [], []⟩) ∧
    signup demoBcrypt calm ⟨[⟨1, "ann", "a@x", "#pw1"⟩], [], []⟩ ⟨"bob", "a@x", some "pw2"⟩ =
      (Result.sent ⟨201, Body.registered "User has been registered successfully"
          ⟨2, "bob", "a@x", "#pw2"⟩⟩,
        ⟨[⟨1, "ann", "a@x", "#pw1"⟩, ⟨2, "bob", "a@x", "#pw2"⟩], [], []⟩) ∧
    demoBcrypt.compare "pw1" (User.password ⟨2, "bob", "a@x", "#pw2"⟩) = false ∧
    login demoBcrypt demoJwt calm
        ⟨[⟨1, "ann", "a@x", "#pw1"⟩, ⟨2, "bob", "a@x", "#pw2"⟩], [], []⟩
        ⟨User.email ⟨2, "bob", "a@x", "#pw2"⟩, some "pw1"⟩ =
      (Result.sent ⟨200, Body.loggedIn "Login successful" "jj"⟩,
        ⟨[⟨1, "ann", "a@x", "#pw1"⟩, ⟨2, "bob", "a@x", "#pw2"⟩], [], []⟩) := by
  decide

/-- C3, amended: for every user store and every stored user `u` that is the first stored user
with its email, a login with `u.email` and a password that does not match `u`'s stored hash is
answered 401 when the lookup completes, with no token and the store as it was. -/
theorem login_wrong_password (bc : Bcrypt) (jwt : Jwt) (env : Env) (db : Db) (u : User)
    (p : String) (l1 l2 : List User) (hstore : env.usersFault = none)
    (hu : db.users = l1 ++ u :: l2) (hfirst : ∀ x ∈ l1, x.email ≠ u.email)
    (hp : bc.compare p u.password = false) :
    login bc jwt env db ⟨u.email, some p⟩ =
      (Result.sent ⟨401, Body.text "Wrong credentials. Please enter the correct password."⟩,
        db) := by
  have hf : db.users.find? (fun x => decide (x.email = u.email)) = some u := by
    rw [hu, find?_skip _ l1 _ (fun x hx => by simpa using hfirst x hx)]
    simp [List.find?]
  simp [login, hstore, hf, hp]

/-- Witness of C3 amended: the first user of the store and a wrong password. -/
theorem login_wrong_password_witness :
    login demoBcrypt demoJwt calm
        ⟨[⟨1, "ann", "a@x", "#pw1"⟩, ⟨2, "bob", "a@x", "#pw2"⟩], [], []⟩
        ⟨"a@x", some "pw2"⟩ =
      (Result.sent ⟨401, Body.text "Wrong credentials. Please enter the correct password."⟩,
        ⟨[⟨1, "ann", "a@x", "#pw1"⟩, ⟨2, "bob", "a@x", "#pw2"⟩], [], []⟩) :=
  login_wrong_password demoBcrypt demoJwt calm
    ⟨[⟨1, "ann", "a@x", "#pw1"⟩, ⟨2, "bob", "a@x", "#pw2"⟩], [], []⟩
    ⟨1, "ann", "a@x", "#pw1"⟩ "pw2" [] [⟨2, "bob", "a@x", "#pw2"⟩] (by decide) (by decide)
    (by decide) (by decide)

/-- C4, against the claim as stated: with a user of the email already stored, the signup
succeeds (201), `compare(p, hash(p))` is true and `verify(sign(id))` returns `id`, and the login
with the same email and password answers 401. -/
theorem signup_login_counterexample :
    signup demoBcrypt calm ⟨[⟨1, "ann", "a@x", "#pw1"⟩], [], []⟩ ⟨"bob", "a@x", some "pw2"⟩ =
      (Result.sent ⟨201, Body.registered "User has been registered successfully"
          ⟨2, "bob", "a@x", "#pw2"⟩⟩,
        ⟨[⟨1, "ann", "a@x", "#pw1"⟩, ⟨2, "bob", "a@x", "#pw2"⟩], [], []⟩) ∧
    demoBcrypt.compare "pw2" (demoBcrypt.hash "pw2" 10 0) = true ∧
    demoJwt.verify (demoJwt.sign 2 0 3600) 0 = some 2 ∧
    login demoBcrypt demoJwt calm
        ⟨[⟨1, "ann", "a@x", "#pw1"⟩, ⟨2, "bob", "a@x", "#pw2"⟩], [], []⟩
        ⟨"a@x", some "pw2"⟩ =
      (Result.sent ⟨401, Body.text "Wrong credentials. Please enter the correct password."⟩,
        ⟨[⟨1, "ann", "a@x", "#pw1"⟩, ⟨2, "bob", "a@x", "#pw2"⟩], [], []⟩) := by
  decide

/-- C4, amended: for every user store in which no stored user has the email yet, if the signup
answers 201 then it has stored a user with the username and email; a login with the same email
and password, its lookup completing, answers 200 with a token `t` signed for that user for 3600
seconds; and `auth`, its lookup completing, given `Authorization: Bearer t` continues with that
user attached.  Assumed: `compare(p, hash(p))` is true, `verify` at the time of the request
returns the id `t` was signed for, and `t` is not empty and has no space. -/
theorem signup_login_auth (bc : Bcrypt) (jwt : Jwt) (envS envL envA : Env) (db db' : Db)
    (username email p : String) (body : Body)
    (hs : signup bc envS db ⟨username, email, some p⟩ = (Result.sent ⟨201, body⟩, db'))
    (hnew : ∀ x ∈ db.users, x.email ≠ email)
    (hL : envL.usersFault = none) (hA : envA.usersFault = none)
    (hcmp : bc.compare p (bc.hash p 10 envS.salt) = true)
    (hver : jwt.verify (jwt.sign (freshId (db.users.map User.id)) envL.now 3600) envA.now =
      some (freshId (db.users.map User.id)))
    (hne : (jwt.sign (freshId (db.users.map User.id)) envL.now 3600).data ≠ [])
    (hsp : ' ' ∉ (jwt.sign (freshId (db.users.map User.id)) envL.now 3600).data) :
    ∃ (u : User) (t : String),
      body = Body.registered "User has been registered successfully" u ∧
      u.username = username ∧ u.email = email ∧ u ∈ db'.users ∧
      t = jwt.sign u.id envL.now 3600 ∧
      login bc jwt envL db' ⟨email, some p⟩ =
        (Result.sent ⟨200, Body.loggedIn "Login successful" t⟩, db') ∧
      auth jwt envA db' (some ("Bearer " ++ t)) = AuthOutcome.next u := by
  unfold signup at hs
  simp only at hs
  split at hs
  · simp at hs
  · simp only [Prod.mk.injEq, Result.sent.injEq, Response.mk.injEq, true_and] at hs
    obtain ⟨hbody, hdb⟩ := hs
    refine ⟨⟨freshId (db.users.map User.id), username, email, bc.hash p 10 envS.salt⟩,
      jwt.sign (freshId (db.users.map User.id)) envL.now 3600, hbody.symm, rfl, rfl, ?_, rfl,
      ?_, ?_⟩
    · rw [← hdb]; simp
    · have hf : db'.users.find? (fun x => decide (x.email = email)) =
          some ⟨freshId (db.users.map User.id), username, email, bc.hash p 10 envS.salt⟩ := by
        rw [← hdb]
        show (db.users ++ _).find? _ = _
        rw [find?_skip _ db.users _ (fun x hx => by simpa using hnew x hx)]
        simp [List.find?]
      simp [login, hL, hf, hcmp]
    · have hf : db'.users.find? (fun x => decide (x.id = freshId (db.users.map User.id))) =
          some ⟨freshId (db.users.map User.id), username, email, bc.hash p 10 envS.salt⟩ := by
        rw [← hdb]
        show (db.users ++ _).find? _ = _
        rw [find?_skip _ db.users _ (fun x hx => by
          have := lt_freshId (db.users.map User.id) x.id (List.mem_map_of_mem _ hx)
          simp only [decide_eq_false_iff_not]
          exact Nat.ne_of_lt this)]
        simp [List.find?]
      simp [auth, bearerToken_bearer _ hne hsp, hver, hA, hf]

/-- Witness of C4 amended: the first signup into the empty store. -/
theorem signup_login_auth_witness :
    ∃ (u : User) (t : String),
      Body.registered "User has been registered successfully" ⟨1, "ann", "a@x", "#pw1"⟩ =
        Body.registered "User has been registered successfully" u ∧
      u.username = "ann" ∧ u.email = "a@x" ∧
      u ∈ (Db.mk [⟨1, "ann", "a@x", "#pw1"⟩] [] []).users ∧
      t = demoJwt.sign u.id calm.now 3600 ∧
      login demoBcrypt demoJwt calm ⟨[⟨1, "ann", "a@x", "#pw1"⟩], [], []⟩
          ⟨"a@x", some "pw1"⟩ =
        (Result.sent ⟨200, Body.loggedIn "Login successful" t⟩,
          ⟨[⟨1, "ann", "a@x", "#pw1"⟩], [], []⟩) ∧
      auth demoJwt calm ⟨[⟨1, "ann", "a@x", "#pw1"⟩], [], []⟩ (some ("Bearer " ++ t)) =
        AuthOutcome.next u :=
  signup_login_auth demoBcrypt demoJwt calm calm calm emptyDb
    ⟨[⟨1, "ann", "a@x", "#pw1"⟩], [], []⟩ "ann" "a@x" "pw1"
    (Body.registered "User has been registered successfully" ⟨1, "ann", "a@x", "#pw1"⟩)
    (by decide) (by decide) (by decide) (by decide) (by decide) (by decide) (by decide)
    (by decide)

theorem postValidation_entries (b : BookBody) :
    (postValidation b ≠ [] ↔
      (notEmpty b.title = false ∨ notEmpty b.author = false ∨
        isInt b.publicationYear = false)) ∧
    ((∃ e ∈ postValidation b, e.param = "title") ↔ notEmpty b.title = false) ∧
    ((∃ e ∈ postValidation b, e.param = "author") ↔ notEmpty b.author = false) ∧
    ((∃ e ∈ postValidation b, e.param = "publicationYear") ↔
      isInt b.publicationYear = false) := by
  cases h1 : notEmpty b.title <;> cases h2 : notEmpty b.author <;>
    cases h3 : isInt b.publicationYear <;>
    simp [postValidation, check, h1, h2, h3]

theorem postBook_invalid (env : Env) (db : Db) (body : BookBody)
    (h : postValidation body ≠ []) :
    postBook env db body = (Result.sent ⟨400, Body.errors (postValidation body)⟩, db) := by
  simp [postBook, h]

theorem postBook_valid (env : Env) (db : Db) (body : BookBody)
    (h : postValidation body = []) (b : Body) (db' : Db) :
    postBook env db body ≠ (Result.sent ⟨400, b⟩, db') := by
  unfold postBook
  rw [if_neg (by simp [h])]
  split
  · split <;> simp [internalError]
  · simp [internalError]

theorem bookRouter_next (jwt : Jwt) (mg : Mongoose) (env : Env) (db : Db)
    (authorization : Option String) (rq : BookRequest) (user : User)
    (h : auth jwt env db authorization = AuthOutcome.next user) :
    bookRouter jwt mg env db authorization rq = bookHandler mg env db rq := by
  simp [bookRouter, h]

/-- C5, against the claim as stated: the number `1e21` is an integer, `title` and `author` are
present and not empty, and the authenticated `POST /book` is answered 400 with an entry for
`publicationYear`: `isInt()` runs on the text `1e+21` that JavaScript prints. -/
theorem postBook_integer_counterexample :
    auth demoJwt calm ⟨[⟨0, "ann", "ann@x", "#pw"⟩], [], []⟩ (some "Bearer j") =
      AuthOutcome.next ⟨0, "ann", "ann@x", "#pw"⟩ ∧
    bookRouter demoJwt demoMongoose calm ⟨[⟨0, "ann", "ann@x", "#pw"⟩], [], []⟩
        (some "Bearer j")
        (BookRequest.create ⟨some (JsonValue.str "Dune"), some (JsonValue.str "Herbert"),
          some (JsonValue.num ⟨false, 1, 21, by decide⟩)⟩) =
      (Result.sent
        ⟨400, Body.errors [⟨"Publication year must be a valid integer", "publicationYear"⟩]⟩,
        ⟨[⟨0, "ann", "ann@x", "#pw"⟩], [], []⟩) ∧
    fieldText (some (JsonValue.num ⟨false, 1, 21, by decide⟩)) = "1e+21" ∧
    ¬ MissingOrEmpty (some (JsonValue.str "Dune")) ∧
    ¬ MissingOrEmpty (some (JsonValue.str "Herbert")) ∧
    IsInteger (some (JsonValue.num ⟨false, 1, 21, by decide⟩)) := by
  refine ⟨by decide, by decide, by decide, ?_, ?_, ?_⟩
  · unfold MissingOrEmpty; decide
  · unfold MissingOrEmpty; decide
  · refine Or.inl ⟨⟨false, 1, 21, by decide⟩, 10 ^ 21, rfl, ?_⟩
    unfold JsNumber.IntegerValue
    refine ⟨by decide, ?_, ?_⟩
    · intro h; cases h
    · intro _; decide

/-- C5, amended: on an authenticated `POST /book` whose `title`, `author` and `publicationYear`
are each absent, `null`, a boolean, a string or a number, the response is 400 exactly when
`title` is missing or empty, or `author` is missing or empty, or `publicationYear` is not an
integer written out in decimal digits (a number that is an integer of magnitude below `1e21`,
or a string of an optional sign and decimal digits); a 400 carries a non-empty `errors` array
that has an entry for a field exactly when that field fails, and leaves the database as it
was. -/
theorem postBook_validation (jwt : Jwt) (mg : Mongoose) (env : Env) (db : Db)
    (authorization : Option String) (body : BookBody) (user : User)
    (hauth : auth jwt env db authorization = AuthOutcome.next user) :
    ((∃ (b : Body) (db' : Db),
        bookRouter jwt mg env db authorization (BookRequest.create body) =
          (Result.sent ⟨400, b⟩, db')) ↔
      (MissingOrEmpty body.title ∨ MissingOrEmpty body.author ∨
        ¬ IsWrittenInteger body.publicationYear)) ∧
    (∀ (b : Body) (db' : Db),
      bookRouter jwt mg env db authorization (BookRequest.create body) =
          (Result.sent ⟨400, b⟩, db') →
        db' = db ∧
        ∃ es : List ValidationError, b = Body.errors es ∧ es ≠ [] ∧
          ((∃ e ∈ es, e.param = "title") ↔ MissingOrEmpty body.title) ∧
          ((∃ e ∈ es, e.param = "author") ↔ MissingOrEmpty body.author) ∧
          ((∃ e ∈ es, e.param = "publicationYear") ↔
            ¬ IsWrittenInteger body.publicationYear)) := by
  have hr : bookRouter jwt mg env db authorization (BookRequest.create body) =
      postBook env db body := by
    rw [bookRouter_next jwt mg env db authorization _ user hauth]; rfl
  have hent := postValidation_entries body
  have hyear : isInt body.publicationYear = false ↔
      ¬ IsWrittenInteger body.publicationYear := by
    rw [← isInt_iff]; simp
  rw [hr]
  constructor
  · constructor
    · rintro ⟨b, db', h⟩
      by_cases hv : postValidation body = []
      · exact absurd h (postBook_valid env db body hv b db')
      · have h3 := hent.1.mp hv
        rw [notEmpty_eq_false_iff, notEmpty_eq_false_iff, hyear] at h3
        exact h3
    · intro h
      rw [← notEmpty_eq_false_iff, ← notEmpty_eq_false_iff, ← hyear] at h
      exact ⟨_, _, postBook_invalid env db body (hent.1.mpr h)⟩
  · intro b db' h
    by_cases hv : postValidation body = []
    · exact absurd h (postBook_valid env db body hv b db')
    · rw [postBook_invalid env db body hv] at h
      simp only [Prod.mk.injEq, Result.sent.injEq, Response.mk.injEq, true_and] at h
      refine ⟨h.2.symm, postValidation body, h.1.symm, hv, ?_, ?_, ?_⟩
      · rw [← notEmpty_eq_false_iff]; exact hent.2.1
      · rw [← notEmpty_eq_false_iff]; exact hent.2.2.1
      · rw [← hyear]; exact hent.2.2.2

/-- Witness of C5 amended: the body with `publicationYear: "not-a-number"` is answered 400 with
an entry for `publicationYear` and none for `title`, and the database is as it was. -/
theorem postBook_validation_witness :
    ∃ es : List ValidationError,
      bookRouter demoJwt demoMongoose calm ⟨[⟨0, "ann", "ann@x", "#pw"⟩], [], []⟩
          (some "Bearer j")
          (BookRequest.create ⟨some (JsonValue.str "Dune"), some (JsonValue.str "Herbert"),
            some (JsonValue.str "not-a-number")⟩) =
        (Result.sent ⟨400, Body.errors es⟩, ⟨[⟨0, "ann", "ann@x", "#pw"⟩], [], []⟩) ∧
      es ≠ [] ∧
      ((∃ e ∈ es, e.param = "title") ↔ MissingOrEmpty (some (JsonValue.str "Dune"))) ∧
      ((∃ e ∈ es, e.param = "publicationYear") ↔
        ¬ IsWrittenInteger (some (JsonValue.str "not-a-number"))) := by
  have hrun : bookRouter demoJwt demoMongoose calm ⟨[⟨0, "ann", "ann@x", "#pw"⟩], [], []⟩
      (some "Bearer j")
      (BookRequest.create ⟨some (JsonValue.str "Dune"), some (JsonValue.str "Herbert"),
        some (JsonValue.str "not-a-number")⟩) =
      (Result.sent
        ⟨400, Body.errors [⟨"Publication year must be a valid integer", "publicationYear"⟩]⟩,
        ⟨[⟨0, "ann", "ann@x", "#pw"⟩], [], []⟩) := by decide
  obtain ⟨_, es, hes, hne, ht, _, hy⟩ :=
    (postBook_validation demoJwt demoMongoose calm ⟨[⟨0, "ann", "ann@x", "#pw"⟩], [], []⟩
      (some "Bearer j")
      ⟨some (JsonValue.str "Dune"), some (JsonValue.str "Herbert"),
        some (JsonValue.str "not-a-number")⟩
      ⟨0, "ann", "ann@x", "#pw"⟩ (by decide)).2 _ _ hrun
  simp only [Body.errors.injEq] at hes
  subst hes
  exact ⟨_, hrun, hne, ht, hy⟩

/-! ## Update and delete -/

theorem updateFirst_at (id : Id) (u : BookUpdate) (l1 : List Book) (b : Book) (l2 : List Book)
    (hb : b.id = id) (hfirst : ∀ x ∈ l1, x.id ≠ id) :
    updateFirst id u (l1 ++ b :: l2) =
      (some (applyUpdate u b), l1 ++ applyUpdate u b :: l2) := by
  induction l1 with
  | nil => simp [updateFirst, hb]
  | cons a l ih =>
    have ha : a.id ≠ id := hfirst a (by simp)
    have hl := ih (fun x hx => hfirst x (by simp [hx]))
    simp [updateFirst, ha, hl]

theorem deleteFirst_at (id : Id) (l1 : List Book) (b : Book) (l2 : List Book)
    (hb : b.id = id) (hfirst : ∀ x ∈ l1, x.id ≠ id) :
    deleteFirst id (l1 ++ b :: l2) = l1 ++ l2 := by
  induction l1 with
  | nil => simp [deleteFirst, hb]
  | cons a l ih =>
    have ha : a.id ≠ id := hfirst a (by simp)
    have hl := ih (fun x hx => hfirst x (by simp [hx]))
    simp [deleteFirst, ha, hl]

theorem deleteFirst_absent (id : Id) (l : List Book) (h : ∀ x ∈ l, x.id ≠ id) :
    deleteFirst id l = l := by
  induction l with
  | nil => rfl
  | cons a l ih =>
    have ha : a.id ≠ id := h a (by simp)
    have hl := ih (fun x hx => h x (by simp [hx]))
    simp [deleteFirst, ha, hl]

theorem first_with_id (id : Id) (l : List Book) (h : ∃ x ∈ l, x.id = id) :
    ∃ (l1 : List Book) (b : Book) (l2 : List Book),
      l = l1 ++ b :: l2 ∧ b.id = id ∧ ∀ x ∈ l1, x.id ≠ id := by
  induction l with
  | nil => obtain ⟨x, hx, _⟩ := h; cases hx
  | cons a l ih =>
    by_cases ha : a.id = id
    · exact ⟨[], a, l, rfl, ha, fun x hx => by cases hx⟩
    · obtain ⟨x, hx, hid⟩ := h
      have hx' : x ∈ l := by
        rcases List.mem_cons.mp hx with e | e
        · subst e; exact absurd hid ha
        · exact e
      obtain ⟨l1, b, l2, hl, hb, hfirst⟩ := ih ⟨x, hx', hid⟩
      refine ⟨a :: l1, b, l2, by rw [hl]; rfl, hb, ?_⟩
      intro y hy
      rcases List.mem_cons.mp hy with e | e
      · subst e; exact ha
      · exact hfirst y e

theorem castKey_of_optionalCheck {α : Type} (cast : JsonValue → Option α)
    (ok : Option JsonValue → Bool) (v : Option JsonValue) (msg param : String)
    (hc : ∀ x, ok (some x) = true → ∃ a, cast x = some a)
    (h : optionalCheck v ok msg param = []) :
    ∃ o : Option α, castKey cast v = some o ∧ (v = none → o = none) ∧
      ∀ x, v = some x → cast x = o ∧ o ≠ none := by
  cases v with
  | none => exact ⟨none, rfl, fun _ => rfl, fun x hx => by cases hx⟩
  | some x =>
    have hok : ok (some x) = true := by
      cases hk : ok (some x) with
      | true => rfl
      | false => simp [optionalCheck, check, hk] at h
    obtain ⟨a, ha⟩ := hc x hok
    refine ⟨some a, (by simp [castKey, ha]), (fun hx => by cases hx), ?_⟩
    intro y hy
    cases hy
    exact ⟨ha, by simp⟩

theorem storedAsText_of_cast (v : JsonValue) (t : String) (h : castString v = some t) :
    StoredAsText v t := by
  refine ⟨?_, ?_, ?_⟩
  · intro s hv
    subst hv
    simpa [castString] using h.symm
  · intro c hv
    subst hv
    simpa [castString] using h.symm
  · intro x hv
    subst hv
    simpa [castString] using h.symm

theorem storedAsNumber_of_cast (v : JsonValue) (y : StoredNumber)
    (h : castNumber v = some y) : StoredAsNumber v y := by
  refine ⟨?_, ?_⟩
  · intro x z hv hz
    subst hv
    rw [castNumber_num x z hz] at h
    simp only [Option.some.injEq] at h
    subst h
    exact ⟨rfl, fun hs => numberOfInt_safe z hs⟩
  · intro z hv
    subst hv
    rw [castNumber_str_intChars z] at h
    simp only [Option.some.injEq] at h
    subst h
    exact ⟨rfl, fun hs => numberOfInt_safe z hs⟩

/-- C6, against the claim as stated: an authenticated `PUT /book/:id` on an existing Book with
the valid body of only `publicationYear: "9007199254740993"` answers 200, and the record
stored and returned holds 9007199254740992 (the cast to Number rounds to the nearest double),
not the supplied 9007199254740993. -/
theorem putBook_supplied_value_counterexample :
    putValidation ⟨none, none, some (JsonValue.str "9007199254740993")⟩ = [] ∧
    "9007199254740993" = String.mk (intChars 9007199254740993) ∧
    bookRouter demoJwt demoMongoose calm
        ⟨[⟨0, "ann", "ann@x", "#pw"⟩], [⟨2, "Dune", "Herbert", StoredNumber.finite 1965⟩], []⟩
        (some "Bearer j")
        (BookRequest.update "000000000000000000000002"
          ⟨none, none, some (JsonValue.str "9007199254740993")⟩) =
      (Result.sent
        ⟨200, Body.book (some ⟨2, "Dune", "Herbert", StoredNumber.finite 9007199254740992⟩)⟩,
        ⟨[⟨0, "ann", "ann@x", "#pw"⟩],
          [⟨2, "Dune", "Herbert", StoredNumber.finite 9007199254740992⟩], []⟩) ∧
    StoredNumber.finite 9007199254740992 ≠ StoredNumber.finite 9007199254740993 := by
  decide

/-- C6, amended: on an authenticated `PUT /book/:id` whose id parameter is cast to the id of an
existing Book `b`, with a body that passes validation and the store completing the update, the
response is 200 with the record that replaces `b` in the store.  In that record every key
absent from the body keeps its value in `b`; a supplied `title` or `author` is stored as its
text (a string as itself); a supplied `publicationYear` that is the integer `z`, as a number or
as the decimal expansion of `z`, is stored as the double nearest to `z`, which is `z` when
`|z| < 2 ^ 53`.  Every other Book record, the users and the denylist are as before. -/
theorem putBook_partial_update (jwt : Jwt) (mg : Mongoose) (env : Env)
    (db : Db) (authorization : Option String) (user : User) (idParam : String) (id : Id)
    (body : BookBody) (l1 : List Book) (b : Book) (l2 : List Book)
    (hauth : auth jwt env db authorization = AuthOutcome.next user)
    (hstore : env.booksFault = none) (hvalid : putValidation body = [])
    (hid : mg.objectId idParam = some id)
    (hdb : db.books = l1 ++ b :: l2) (hb : b.id = id) (hfirst : ∀ x ∈ l1, x.id ≠ id) :
    ∃ b' : Book,
      bookRouter jwt mg env db authorization (BookRequest.update idParam body) =
        (Result.sent ⟨200, Body.book (some b')⟩, ⟨db.users, l1 ++ b' :: l2, db.blacklist⟩) ∧
      b'.id = b.id ∧
      (body.title = none → b'.title = b.title) ∧
      (∀ v, body.title = some v → StoredAsText v b'.title) ∧
      (body.author = none → b'.author = b.author) ∧
      (∀ v, body.author = some v → StoredAsText v b'.author) ∧
      (body.publicationYear = none → b'.publicationYear = b.publicationYear) ∧
      (∀ v, body.publicationYear = some v → StoredAsNumber v b'.publicationYear) := by
  have hr : bookRouter jwt mg env db authorization (BookRequest.update idParam body) =
      putBook mg env db idParam body := by
    rw [bookRouter_next jwt mg env db authorization _ user hauth]; rfl
  have hv := hvalid
  unfold putValidation at hv
  rw [List.append_eq_nil, List.append_eq_nil] at hv
  obtain ⟨⟨h1, h2⟩, h3⟩ := hv
  obtain ⟨t, ht, ht0, ht1⟩ :=
    castKey_of_optionalCheck castString notEmpty body.title _ _ castString_of_notEmpty h1
  obtain ⟨a, ha, ha0, ha1⟩ :=
    castKey_of_optionalCheck castString notEmpty body.author _ _ castString_of_notEmpty h2
  obtain ⟨y, hy, hy0, hy1⟩ :=
    castKey_of_optionalCheck castNumber isInt body.publicationYear _ _ castNumber_of_isInt h3
  refine ⟨applyUpdate ⟨t, a, y⟩ b, ?_, rfl, ?_, ?_, ?_, ?_, ?_, ?_⟩
  · rw [hr]
    simp [putBook, hvalid, hid, ht, ha, hy, hstore, hdb,
      updateFirst_at id _ l1 b l2 hb hfirst]
  · intro h; simp [applyUpdate, ht0 h]
  · intro v h
    obtain ⟨hc, hn⟩ := ht1 v h
    cases t with
    | none => exact absurd rfl hn
    | some x => exact storedAsText_of_cast v _ (by simpa [applyUpdate] using hc)
  · intro h; simp [applyUpdate, ha0 h]
  · intro v h
    obtain ⟨hc, hn⟩ := ha1 v h
    cases a with
    | none => exact absurd rfl hn
    | some x => exact storedAsText_of_cast v _ (by simpa [applyUpdate] using hc)
  · intro h; simp [applyUpdate, hy0 h]
  · intro v h
    obtain ⟨hc, hn⟩ := hy1 v h
    cases y with
    | none => exact absurd rfl hn
    | some x => exact storedAsNumber_of_cast v _ (by simpa [applyUpdate] using hc)

/-- Witness of C6 amended: a body of only `title: "New"` on the second of two stored books. -/
theorem putBook_partial_update_witness :
    ∃ b' : Book,
      bookRouter demoJwt demoMongoose calm
          ⟨[⟨0, "ann", "ann@x", "#pw"⟩],
            [⟨1, "Emma", "Austen", StoredNumber.finite 1815⟩,
              ⟨2, "Dune", "Herbert", StoredNumber.finite 1965⟩], []⟩
          (some "Bearer j")
          (BookRequest.update "000000000000000000000002"
            ⟨some (JsonValue.str "New"), none, none⟩) =
        (Result.sent ⟨200, Body.book (some b')⟩,
          ⟨[⟨0, "ann", "ann@x", "#pw"⟩],
            [⟨1, "Emma", "Austen", StoredNumber.finite 1815⟩, b'], []⟩) ∧
      b'.id = 2 ∧ b'.title = "New" ∧ b'.author = "Herbert" ∧
      b'.publicationYear = StoredNumber.finite 1965 := by
  obtain ⟨b', h, hid, _, ht, ha, _, hy, _⟩ :=
    putBook_partial_update demoJwt demoMongoose calm
      ⟨[⟨0, "ann", "ann@x", "#pw"⟩],
        [⟨1, "Emma", "Austen", StoredNumber.finite 1815⟩,
          ⟨2, "Dune", "Herbert", StoredNumber.finite 1965⟩], []⟩
      (some "Bearer j") ⟨0, "ann", "ann@x", "#pw"⟩ "000000000000000000000002" 2
      ⟨some (JsonValue.str "New"), none, none⟩
      [⟨1, "Emma", "Austen", StoredNumber.finite 1815⟩]
      ⟨2, "Dune", "Herbert", StoredNumber.finite 1965⟩ [] (by decide) (by decide)
      (by decide) (by decide) (by decide) (by decide) (by decide)
  exact ⟨b', h, hid, (ht (JsonValue.str "New") rfl).1 "New" rfl, ha rfl, hy rfl⟩

/-- C7, against the claim as stated: the authenticated `DELETE /book/abc` is answered 500, not
200: `abc` is no identifier, `findByIdAndDelete` throws on the cast and the `catch` answers. -/
theorem deleteBook_malformed_id_counterexample :
    auth demoJwt calm
        ⟨[⟨0, "ann", "ann@x", "#pw"⟩], [⟨2, "Dune", "Herbert", StoredNumber.finite 1965⟩], []⟩
        (some "Bearer j") =
      AuthOutcome.next ⟨0, "ann", "ann@x", "#pw"⟩ ∧
    demoMongoose.objectId "abc" = none ∧
    bookRouter demoJwt demoMongoose calm
        ⟨[⟨0, "ann", "ann@x", "#pw"⟩], [⟨2, "Dune", "Herbert", StoredNumber.finite 1965⟩], []⟩
        (some "Bearer j") (BookRequest.remove "abc") =
      (Result.sent ⟨500, Body.error "Internal server error"⟩,
        ⟨[⟨0, "ann", "ann@x", "#pw"⟩],
          [⟨2, "Dune", "Herbert", StoredNumber.finite 1965⟩], []⟩) := by
  decide

/-- C7, amended: on an authenticated `DELETE /book/:id`, when the id parameter is cast to an
identifier and the store completes the call, the response is 200 with the message whether or
not a Book with that id exists; the users and the denylist are as before; when no Book has the
id the database is unchanged, and when one has it the first (with unique ids: the) record with
the id is removed and every other record stays.  When the parameter cannot be cast, or the
store raises, the response is 500 with `error: 'Internal server error'` and the database is
unchanged. -/
theorem deleteBook_outcomes (jwt : Jwt) (mg : Mongoose) (env : Env) (db : Db)
    (authorization : Option String) (user : User) (idParam : String)
    (hauth : auth jwt env db authorization = AuthOutcome.next user) :
    ((mg.objectId idParam = none ∨ env.booksFault ≠ none) →
      bookRouter jwt mg env db authorization (BookRequest.remove idParam) =
        (Result.sent ⟨500, Body.error "Internal server error"⟩, db)) ∧
    (∀ id : Id, mg.objectId idParam = some id → env.booksFault = none →
      ∃ db' : Db,
        bookRouter jwt mg env db authorization (BookRequest.remove idParam) =
          (Result.sent ⟨200, Body.message "Book deleted successfully"⟩, db') ∧
        db'.users = db.users ∧ db'.blacklist = db.blacklist ∧
        ((∀ x ∈ db.books, x.id ≠ id) → db' = db) ∧
        ((∃ x ∈ db.books, x.id = id) →
          ∃ (l1 : List Book) (b : Book) (l2 : List Book),
            db.books = l1 ++ b :: l2 ∧ b.id = id ∧ (∀ x ∈ l1, x.id ≠ id) ∧
            db'.books = l1 ++ l2)) := by
  have hr : bookRouter jwt mg env db authorization (BookRequest.remove idParam) =
      deleteBook mg env db idParam := by
    rw [bookRouter_next jwt mg env db authorization _ user hauth]; rfl
  rw [hr]
  constructor
  · intro h
    unfold deleteBook
    cases hc : mg.objectId idParam with
    | none => rfl
    | some i =>
      cases hf : env.booksFault with
      | none =>
        rcases h with h | h
        · rw [hc] at h; cases h
        · exact absurd hf h
      | some m => rfl
  · intro id hid hstore
    refine ⟨{ db with books := deleteFirst id db.books }, ?_, rfl, rfl, ?_, ?_⟩
    · simp [deleteBook, hid, hstore]
    · intro h
      rw [deleteFirst_absent id db.books h]
    · intro h
      obtain ⟨l1, b, l2, hl, hb, hfirst⟩ := first_with_id id db.books h
      refine ⟨l1, b, l2, hl, hb, hfirst, ?_⟩
      show deleteFirst id db.books = l1 ++ l2
      rw [hl, deleteFirst_at id l1 b l2 hb hfirst]

/-- Witness of C7 amended: deleting a well-formed id that no Book has. -/
theorem deleteBook_outcomes_witness :
    ∃ db' : Db,
      bookRouter demoJwt demoMongoose calm
          ⟨[⟨0, "ann", "ann@x", "#pw"⟩],
            [⟨2, "Dune", "Herbert", StoredNumber.finite 1965⟩], []⟩
          (some "Bearer j") (BookRequest.remove "000000000000000000000007") =
        (Result.sent ⟨200, Body.message "Book deleted successfully"⟩, db') ∧
      db' = ⟨[⟨0, "ann", "ann@x", "#pw"⟩],
        [⟨2, "Dune", "Herbert", StoredNumber.finite 1965⟩], []⟩ := by
  obtain ⟨db', h, _, _, hno, _⟩ :=
    (deleteBook_outcomes demoJwt demoMongoose calm
      ⟨[⟨0, "ann", "ann@x", "#pw"⟩], [⟨2, "Dune", "Herbert", StoredNumber.finite 1965⟩], []⟩
      (some "Bearer j") ⟨0, "ann", "ann@x", "#pw"⟩ "000000000000000000000007"
      (by decide)).2 7 (by decide) (by decide)
  exact ⟨db', h, hno (by decide)⟩

/-! ## Create, then read back by author -/

/-- C8, against the claim as stated: `POST /book` with `publicationYear: "9007199254740993"` is
accepted (201); the following authenticated `GET /book/author/Herbert` answers 200 with the one
record of that author, whose publicationYear is 9007199254740992, not the posted
9007199254740993. -/
theorem post_read_back_counterexample :
    "9007199254740993" = String.mk (intChars 9007199254740993) ∧
    bookRouter demoJwt demoMongoose calm ⟨[⟨0, "ann", "ann@x", "#pw"⟩], [], []⟩
        (some "Bearer j")
        (BookRequest.create ⟨some (JsonValue.str "Dune"), some (JsonValue.str "Herbert"),
          some (JsonValue.str "9007199254740993")⟩) =
      (Result.sent
        ⟨201, Body.book (some ⟨1, "Dune", "Herbert", StoredNumber.finite 9007199254740992⟩)⟩,
        ⟨[⟨0, "ann", "ann@x", "#pw"⟩],
          [⟨1, "Dune", "Herbert", StoredNumber.finite 9007199254740992⟩], []⟩) ∧
    bookRouter demoJwt demoMongoose calm
        ⟨[⟨0, "ann", "ann@x", "#pw"⟩],
          [⟨1, "Dune", "Herbert", StoredNumber.finite 9007199254740992⟩], []⟩
        (some "Bearer j") (BookRequest.byAuthor "Herbert") =
      (Result.sent
        ⟨200, Body.books [⟨1, "Dune", "Herbert", StoredNumber.finite 9007199254740992⟩]⟩,
        ⟨[⟨0, "ann", "ann@x", "#pw"⟩],
          [⟨1, "Dune", "Herbert", StoredNumber.finite 9007199254740992⟩], []⟩) ∧
    StoredNumber.finite 9007199254740992 ≠ StoredNumber.finite 9007199254740993 := by
  decide

/-- C8, amended: when `POST /book` answers 201, the body has the three fields and the record
sent and stored holds the title and the author as their text (a string as itself) and, for a
publicationYear that is the integer `z` (as a number or as the decimal expansion of `z`), the
double nearest to `z`, which is `z` when `|z| < 2 ^ 53`.  A following authenticated
`GET /book/author/<author>` for the stored author, the store completing the query, answers 200
with a list that contains the record and in which every record has exactly that author, and
leaves the database as it was. -/
theorem post_then_get_by_author (jwt : Jwt) (mg : Mongoose) (env1 env2 : Env)
    (db db' : Db) (a1 a2 : Option String) (body : BookBody) (created : Body) (user2 : User)
    (hpost : bookRouter jwt mg env1 db a1 (BookRequest.create body) =
      (Result.sent ⟨201, created⟩, db'))
    (hauth2 : auth jwt env2 db' a2 = AuthOutcome.next user2)
    (hstore : env2.booksFault = none) :
    ∃ (r : Book) (vt va vy : JsonValue),
      body = ⟨some vt, some va, some vy⟩ ∧
      created = Body.book (some r) ∧
      StoredAsText vt r.title ∧ StoredAsText va r.author ∧
      StoredAsNumber vy r.publicationYear ∧
      ∃ bs : List Book,
        bookRouter jwt mg env2 db' a2 (BookRequest.byAuthor r.author) =
          (Result.sent ⟨200, Body.books bs⟩, db') ∧
        r ∈ bs ∧ ∀ x ∈ bs, x.author = r.author := by
  have hp : postBook env1 db body = (Result.sent ⟨201, created⟩, db') := by
    unfold bookRouter at hpost
    split at hpost
    · rename_i r hrej
      have hst := auth_reject_status jwt env1 db a1 r hrej
      simp only [Prod.mk.injEq, Result.sent.injEq] at hpost
      rw [hpost.1] at hst
      simp at hst
    · exact hpost
  have hget : ∀ author, bookRouter jwt mg env2 db' a2 (BookRequest.byAuthor author) =
      (Result.sent ⟨200, Body.books (db'.books.filter (fun b => decide (b.author = author)))⟩,
        db') := by
    intro author
    rw [bookRouter_next jwt mg env2 db' a2 _ user2 hauth2]
    simp [bookHandler, getBooksByAuthor, hstore]
  by_cases hv : postValidation body = []
  · cases ht : body.title.bind castString with
    | none => simp [postBook, hv, ht, internalError] at hp
    | some t =>
      cases ha : body.author.bind castString with
      | none => simp [postBook, hv, ht, ha, internalError] at hp
      | some a =>
        cases hy : body.publicationYear.bind castNumber with
        | none => simp [postBook, hv, ht, ha, hy, internalError] at hp
        | some y =>
          cases hf : env1.booksFault with
          | some m => simp [postBook, hv, ht, ha, hy, hf, internalError] at hp
          | none =>
            simp only [postBook, hv, ht, ha, hy, hf, ne_eq, not_true_eq_false, if_false,
              Prod.mk.injEq, Result.sent.injEq, Response.mk.injEq, true_and] at hp
            obtain ⟨hc, hdb⟩ := hp
            obtain ⟨vt, hvt, hct⟩ := Option.bind_eq_some.mp ht
            obtain ⟨va, hva, hca⟩ := Option.bind_eq_some.mp ha
            obtain ⟨vy, hvy, hcy⟩ := Option.bind_eq_some.mp hy
            refine ⟨⟨freshId (db.books.map Book.id), t, a, y⟩, vt, va, vy, ?_, hc.symm,
              storedAsText_of_cast vt t hct, storedAsText_of_cast va a hca,
              storedAsNumber_of_cast vy y hcy, _, hget a, ?_, ?_⟩
            · cases body with
              | mk bt ba bY =>
                simp only at hvt hva hvy
                rw [hvt, hva, hvy]
            · rw [← hdb]
              simp
            · intro x hx
              simpa using (List.mem_filter.mp hx).2
  · rw [postBook_invalid env1 db body hv] at hp
    simp at hp

/-- Witness of C8 amended: the scenario of the specification, Dune by Herbert, 1965: the POST
answers 201 and the read by author returns the record with the posted fields. -/
theorem post_then_get_by_author_witness :
    bookRouter demoJwt demoMongoose calm ⟨[⟨0, "ann", "ann@x", "#pw"⟩], [], []⟩
        (some "Bearer j")
        (BookRequest.create ⟨some (JsonValue.str "Dune"), some (JsonValue.str "Herbert"),
          some (JsonValue.num ⟨false, 1965, 0, by decide⟩)⟩) =
      (Result.sent ⟨201, Body.book (some ⟨1, "Dune", "Herbert", StoredNumber.finite 1965⟩)⟩,
        ⟨[⟨0, "ann", "ann@x", "#pw"⟩],
          [⟨1, "Dune", "Herbert", StoredNumber.finite 1965⟩], []⟩) ∧
    ∃ r : Book,
      r.title = "Dune" ∧ r.author = "Herbert" ∧
      r.publicationYear = StoredNumber.finite 1965 ∧
      ∃ bs : List Book,
        bookRouter demoJwt demoMongoose calm
            ⟨[⟨0, "ann", "ann@x", "#pw"⟩],
              [⟨1, "Dune", "Herbert", StoredNumber.finite 1965⟩], []⟩
            (some "Bearer j") (BookRequest.byAuthor r.author) =
          (Result.sent ⟨200, Body.books bs⟩,
            ⟨[⟨0, "ann", "ann@x", "#pw"⟩],
              [⟨1, "Dune", "Herbert", StoredNumber.finite 1965⟩], []⟩) ∧
        r ∈ bs ∧ ∀ x ∈ bs, x.author = r.author := by
  obtain ⟨r, vt, va, vy, hbody, _, ht, ha, hy, hbs⟩ :=
    post_then_get_by_author demoJwt demoMongoose calm calm
      ⟨[⟨0, "ann", "ann@x", "#pw"⟩], [], []⟩
      ⟨[⟨0, "ann", "ann@x", "#pw"⟩], [⟨1, "Dune", "Herbert", StoredNumber.finite 1965⟩], []⟩
      (some "Bearer j") (some "Bearer j")
      ⟨some (JsonValue.str "Dune"), some (JsonValue.str "Herbert"),
        some (JsonValue.num ⟨false, 1965, 0, by decide⟩)⟩
      (Body.book (some ⟨1, "Dune", "Herbert", StoredNumber.finite 1965⟩))
      ⟨0, "ann", "ann@x", "#pw"⟩
      (by decide) (by decide) (by decide)
  simp only [BookBody.mk.injEq, Option.some.injEq] at hbody
  obtain ⟨h1, h2, h3⟩ := hbody
  subst h1 h2 h3
  refine ⟨by decide, r, ht.1 "Dune" rfl, ha.1 "Herbert" rfl, ?_, hbs⟩
  refine (hy.1 ⟨false, 1965, 0, by decide⟩ 1965 rfl ?_).2 (by decide)
  unfold JsNumber.IntegerValue
  refine ⟨by decide, ?_, ?_⟩
  · intro h; cases h
  · intro _; decide

/-! ## Errors raised while a handler runs -/

/-- C9, against the claim as stated: a store error with the message "connection lost" raised
while `GET /book` runs is answered 500 with the fixed body `error: 'Internal server error'`, not
with the error's message; and `POST /user/logout` without an Authorization header sends no
response from the handler: the TypeError is thrown before the `try`. -/
theorem handler_error_counterexample :
    getBooks ⟨0, 0, none, some "connection lost", none⟩ emptyDb =
      (Result.sent ⟨500, Body.error "Internal server error"⟩, emptyDb) ∧
    getBooks ⟨0, 0, none, some "connection lost", none⟩ emptyDb ≠
      (Result.sent ⟨500, Body.error "connection lost"⟩, emptyDb) ∧
    logout calm emptyDb none =
      (Result.uncaught "Cannot read properties of undefined (reading 'replace')", emptyDb) := by
  decide

/-- C9, amended: a store error raised inside the `try` of a handler is answered with status 500
in one response and the database is left as it was.  The body is `error: message` with the
error's message for signup, login and logout (logout on a request that has the Authorization
header), and the fixed `error: 'Internal server error'` for each of the six book handlers (for
`POST /book` and `PUT /book/:id` the store is reached once validation has passed). -/
theorem handler_errors_answered_500 (bc : Bcrypt) (jwt : Jwt) (mg : Mongoose)
    (env : Env) (db : Db) (m : String) :
    (env.usersFault = some m → ∀ (username email p : String),
      signup bc env db ⟨username, email, some p⟩ = (Result.sent ⟨500, Body.error m⟩, db)) ∧
    (env.usersFault = some m → ∀ body : LoginBody,
      login bc jwt env db body = (Result.sent ⟨500, Body.error m⟩, db)) ∧
    (env.blacklistFault = some m → ∀ h : String, (jsReplace h "Bearer " "").data ≠ [] →
      logout env db (some h) = (Result.sent ⟨500, Body.error m⟩, db)) ∧
    (env.booksFault = some m → ∀ rq : BookRequest,
      (∀ body, rq = BookRequest.create body → postValidation body = []) →
      (∀ id body, rq = BookRequest.update id body → putValidation body = []) →
      bookHandler mg env db rq =
        (Result.sent ⟨500, Body.error "Internal server error"⟩, db)) := by
  refine ⟨?_, ?_, ?_, ?_⟩
  · intro hf username email p
    simp [signup, hf]
  · intro hf body
    simp [login, hf]
  · intro hf h hne
    simp [logout, hf, hne]
  · intro hf rq hpost hput
    cases rq with
    | list => simp [bookHandler, getBooks, hf, internalError]
    | byAuthor author => simp [bookHandler, getBooksByAuthor, hf, internalError]
    | byPublicationYear year =>
      cases hc : mg.yearParam year <;>
        simp [bookHandler, getBooksByPublicationYear, hc, hf, internalError]
    | create body =>
      have hv := hpost body rfl
      simp only [bookHandler, postBook, hv, ne_eq, not_true_eq_false, if_false]
      split <;> simp [hf, internalError]
    | update id body =>
      have hv := hput id body rfl
      simp only [bookHandler, putBook, hv, ne_eq, not_true_eq_false, if_false]
      cases hc : mg.objectId id with
      | none => simp [internalError]
      | some i =>
        simp only
        split <;> simp [hf, internalError]
    | remove id =>
      cases hc : mg.objectId id <;> simp [bookHandler, deleteBook, hc, hf, internalError]

/-- Witness of C9 amended: a login while the users collection cannot be reached. -/
theorem handler_errors_answered_500_witness :
    login demoBcrypt demoJwt ⟨0, 0, some "connection lost", none, none⟩ emptyDb
        ⟨"a@x", some "pw1"⟩ =
      (Result.sent ⟨500, Body.error "connection lost"⟩, emptyDb) :=
  (handler_errors_answered_500 demoBcrypt demoJwt demoMongoose
    ⟨0, 0, some "connection lost", none, none⟩ emptyDb "connection lost").2.1 (by decide)
    ⟨"a@x", some "pw1"⟩

end BookApi
